import Mathlib

/-!
Verification-code cache (webook/internal/repository/cache/code.go).

A shallow embedding of the in-memory verification-code cache `LocalCodeCache`
and of the key derivation shared with `RedisCodeCache`.

Modelling conventions

* `time.Time` is an integer count of nanoseconds (`Time`); `Before` / `After`
  are the strict orders `<` / `>`, and `Add` is integer addition.
* Each call reads the clock once: the instant is the explicit argument `now`.
* The Go map `map[string]cacheEntry` is a partial function
  `String → Option cacheEntry`; `c.data[key] = entry` is `mapStore` and
  `delete(c.data, key)` is `mapDelete`.
* Go `int` is a 64-bit two's-complement integer: `attempts++` is
  `wrapInt (attempts + 1)`.
* The mutex and the unused `ctx` argument are left out: every call is one atomic
  transition `state ↦ (state, result)`.
* `RedisCodeCache` holds its collaborator `cmd` as the function that maps a script,
  its keys and its argument to what `Eval(...).Int()` returns; the two embedded
  Lua scripts are arguments of the methods.

The slice functions of week1/main.go are embedded in the namespace `week1`: a
slice is a header `(off, len, cap)` over the contents of its backing array, a
slice expression that would fail at run time is `none`, and the capacity chosen
by `append` when it allocates is an argument (`slack`).
-/

namespace cache

/-- Instants, in nanoseconds. -/
abbrev Time := Int

/-- The constant `time.Minute` of the Go standard library, in nanoseconds. -/
def Minute : Int := 60 * 1000000000

/-- Error values of the package. `ErrCodeSendTooMany` and `ErrCodeVerifyTooMany`
are the two package-level variables; `errorsNew` is a value built by a call of
`errors.New` inside a function body, and `external` is an error produced by a
collaborator outside the package. -/
inductive Error where
  | ErrCodeSendTooMany
  | ErrCodeVerifyTooMany
  | errorsNew (msg : String)
  | external (tag : Nat)
deriving DecidableEq, Repr

/-- The struct `cacheEntry`. -/
structure cacheEntry where
  code : String
  expireAt : Time
  attempts : Int
deriving DecidableEq, Repr

/-- The constant `maxAttempts`. -/
def maxAttempts : Int := 3

/-- The constant `codeTTL` (`5 * time.Minute`). -/
def codeTTL : Int := 5 * Minute

/-- Two's-complement wrap-around of a 64-bit Go `int`. -/
def wrapInt (x : Int) : Int := (x + 2 ^ 63) % 2 ^ 64 - 2 ^ 63

/-- The assignment `m[k] = e` on a Go map. -/
def mapStore (m : String → Option cacheEntry) (k : String) (e : cacheEntry) :
    String → Option cacheEntry :=
  fun k2 => if k2 = k then some e else m k2

/-- The statement `delete(m, k)` on a Go map. -/
def mapDelete (m : String → Option cacheEntry) (k : String) :
    String → Option cacheEntry :=
  fun k2 => if k2 = k then none else m k2

/-- The struct `LocalCodeCache` (its `data` field). -/
structure LocalCodeCache where
  data : String → Option cacheEntry

/-- The constructor `NewLocalCodeCache`: an empty map. -/
def NewLocalCodeCache : LocalCodeCache := ⟨fun _ => none⟩

/-- The method `RedisCodeCache.key`: `fmt.Sprintf("phone_code:%s:%s", biz, phone)`. -/
def RedisCodeCache.key (biz phone : String) : String :=
  "phone_code:" ++ biz ++ ":" ++ phone

/-- The method `LocalCodeCache.key`: `fmt.Sprintf("phone_code:%s:%s", biz, phone)`. -/
def LocalCodeCache.key (biz phone : String) : String :=
  "phone_code:" ++ biz ++ ":" ++ phone

/-- The struct `RedisCodeCache`. Its field `cmd` stands for
`cmd.Eval(ctx, script, keys, arg).Int()`: the integer and the error (`none` is
`nil`) that the evaluation of `script` on `keys` and `arg` returns. -/
structure RedisCodeCache where
  cmd : String → List String → String → Int × Option Error

/-- The method `RedisCodeCache.Set`; `luaSetCode` is the embedded script. -/
def RedisCodeCache.Set (c : RedisCodeCache) (luaSetCode : String)
    (biz phone code : String) : Option Error :=
  match c.cmd luaSetCode [RedisCodeCache.key biz phone] code with
  | (_, some err) => some err
  | (res, none) =>
    if res = -2 then
      some (Error.errorsNew "验证码存在，但是没有过期时间")
    else if res = -1 then
      some Error.ErrCodeSendTooMany
    else
      none

/-- The method `RedisCodeCache.Verify`; `luaVerifyCode` is the embedded script. -/
def RedisCodeCache.Verify (c : RedisCodeCache) (luaVerifyCode : String)
    (biz phone code : String) : Bool × Option Error :=
  match c.cmd luaVerifyCode [RedisCodeCache.key biz phone] code with
  | (_, some err) => (false, some err)
  | (res, none) =>
    if res = -2 then
      (false, none)
    else if res = -1 then
      (false, some Error.ErrCodeVerifyTooMany)
    else
      (true, none)

/-- The method `LocalCodeCache.Set`, run at instant `now`. Returns the new state and
the returned error (`none` is `nil`). -/
def LocalCodeCache.Set (c : LocalCodeCache) (now : Time) (biz phone code : String) :
    LocalCodeCache × Option Error :=
  let key := LocalCodeCache.key biz phone
  let fresh : cacheEntry := { code := code, expireAt := now + codeTTL, attempts := 0 }
  match c.data key with
  | some entry =>
    if now < entry.expireAt then
      let entry1 : cacheEntry := { entry with attempts := wrapInt (entry.attempts + 1) }
      if entry1.attempts > maxAttempts then
        (c, some Error.ErrCodeSendTooMany)
      else
        (⟨mapStore c.data key entry1⟩, none)
    else
      (⟨mapStore c.data key fresh⟩, none)
  | none => (⟨mapStore c.data key fresh⟩, none)

/-- The method `LocalCodeCache.Verify`, run at instant `now`. Returns the new state,
the boolean result and the returned error (`none` is `nil`). -/
def LocalCodeCache.Verify (c : LocalCodeCache) (now : Time) (biz phone code : String) :
    LocalCodeCache × Bool × Option Error :=
  let key := LocalCodeCache.key biz phone
  match c.data key with
  | none => (c, false, none)
  | some entry =>
    if now > entry.expireAt then
      (c, false, none)
    else if entry.code = code then
      (⟨mapDelete c.data key⟩, true, none)
    else
      let entry1 : cacheEntry := { entry with attempts := wrapInt (entry.attempts + 1) }
      if entry1.attempts > maxAttempts then
        (⟨mapDelete c.data key⟩, false, some Error.ErrCodeVerifyTooMany)
      else
        (⟨mapStore c.data key entry1⟩, false, none)

/-- One call of the local backend: which method, when, and with which arguments. -/
inductive Op where
  | set (now : Time) (biz phone code : String)
  | verify (now : Time) (biz phone code : String)
deriving DecidableEq, Repr

/-- What a call returns: the error of `Set`, or the pair returned by `Verify`. -/
inductive Outcome where
  | ofSet (err : Option Error)
  | ofVerify (matched : Bool) (err : Option Error)
deriving DecidableEq, Repr

/-- The derived key a call works on. -/
def Op.key : Op → String
  | Op.set _ biz phone _ => LocalCodeCache.key biz phone
  | Op.verify _ biz phone _ => LocalCodeCache.key biz phone

/-- The `(biz, phone)` pair a call is made with. -/
def Op.pair : Op → String × String
  | Op.set _ biz phone _ => (biz, phone)
  | Op.verify _ biz phone _ => (biz, phone)

/-- Whether the call is a `Set` whose derived key is `k`. -/
def Op.isSetOn (k : String) : Op → Bool
  | Op.set _ biz phone _ => decide (LocalCodeCache.key biz phone = k)
  | Op.verify _ _ _ _ => false

/-- Run one call on a cache. -/
def LocalCodeCache.call (c : LocalCodeCache) : Op → LocalCodeCache × Outcome
  | Op.set now biz phone code =>
    ((c.Set now biz phone code).1, Outcome.ofSet (c.Set now biz phone code).2)
  | Op.verify now biz phone code =>
    ((c.Verify now biz phone code).1,
      Outcome.ofVerify (c.Verify now biz phone code).2.1 (c.Verify now biz phone code).2.2)

/-- Run a sequence of calls, left to right, and keep the final cache. -/
def LocalCodeCache.run (c : LocalCodeCache) : List Op → LocalCodeCache
  | [] => c
  | op :: ops => (c.call op).1.run ops

/-- Run a sequence of calls, left to right, and collect what each call returns. -/
def LocalCodeCache.outcomes (c : LocalCodeCache) : List Op → List Outcome
  | [] => []
  | op :: ops => (c.call op).2 :: (c.call op).1.outcomes ops

/-- Every stored entry has its counter between 0 and `maxAttempts`. -/
def AttemptsBounded (c : LocalCodeCache) : Prop :=
  ∀ k e, c.data k = some e → 0 ≤ e.attempts ∧ e.attempts ≤ maxAttempts

end cache

namespace week1

/-- A Go slice value: the contents of its backing array and the header
`(off, len, cap)`; the slice shows `array[off .. off + len)` and may grow up to
`array[off .. off + cap)`. -/
structure Slice (α : Type) where
  array : List α
  off : Nat
  len : Nat
  cap : Nat
deriving DecidableEq, Repr

/-- A header that fits its backing array. -/
def Slice.WF {α : Type} (s : Slice α) : Prop :=
  s.len ≤ s.cap ∧ s.off + s.cap ≤ s.array.length

instance {α : Type} (s : Slice α) : Decidable s.WF :=
  inferInstanceAs (Decidable (s.len ≤ s.cap ∧ s.off + s.cap ≤ s.array.length))

/-- The elements `s[0], ..., s[len(s)-1]`. -/
def Slice.toList {α : Type} (s : Slice α) : List α :=
  (s.array.drop s.off).take s.len

/-- The nil slice `[]T(nil)`. -/
def nilSlice {α : Type} : Slice α :=
  { array := [], off := 0, len := 0, cap := 0 }

/-- The slice expression `s[low:]`; it fails unless `0 ≤ low ≤ len(s)`. -/
def Slice.sliceFrom {α : Type} (s : Slice α) (low : Int) : Option (Slice α) :=
  if 0 ≤ low ∧ low ≤ (s.len : Int) then
    some { array := s.array, off := s.off + low.toNat, len := s.len - low.toNat,
           cap := s.cap - low.toNat }
  else
    none

/-- The slice expression `s[:high]`; it fails unless `0 ≤ high ≤ cap(s)`. -/
def Slice.sliceTo {α : Type} (s : Slice α) (high : Int) : Option (Slice α) :=
  if 0 ≤ high ∧ high ≤ (s.cap : Int) then
    some { array := s.array, off := s.off, len := high.toNat, cap := s.cap }
  else
    none

/-- Overwrite the cells `mem[pos .. pos + len(xs))` with `xs`. -/
def writeAt {α : Type} (mem : List α) (pos : Nat) (xs : List α) : List α :=
  mem.take pos ++ xs ++ mem.drop (pos + xs.length)

/-- The builtin `copy(dst, src)`: the backing array of `dst` after the first
`min(len(dst), len(src))` elements of `src` were moved into `dst`; the source is read
before the destination is written, as the builtin does for overlapping slices. -/
def copy {α : Type} (dst src : Slice α) : List α :=
  writeAt dst.array dst.off (src.toList.take (min dst.len src.len))

/-- The builtin `append(a, b...)`: in place when the capacity of `a` suffices,
otherwise into a new array whose capacity exceeds the needed length `n` by
`slack n`, the spare cells holding the zero value. -/
def append {α : Type} (slack : Nat → Nat) (zero : α) (a b : Slice α) : Slice α :=
  if a.len + b.len ≤ a.cap then
    { array := writeAt a.array (a.off + a.len) b.toList, off := a.off,
      len := a.len + b.len, cap := a.cap }
  else
    { array := a.toList ++ b.toList ++ List.replicate (slack (a.len + b.len)) zero,
      off := 0, len := a.len + b.len, cap := a.len + b.len + slack (a.len + b.len) }

/-- The function `isValidIndex`. -/
def isValidIndex {α : Type} (slice : Slice α) (index : Int) : Bool :=
  decide (index ≥ 0) && decide (index < (slice.len : Int))

/-- The function `RemoveIntElement`; `none` is a run-time failure. -/
def RemoveIntElement (slack : Nat → Nat) (slice : Slice Int) (index : Int) :
    Option (Slice Int) :=
  if !isValidIndex slice index then
    some slice
  else
    match slice.sliceTo index, slice.sliceFrom (index + 1) with
    | some a, some b => some (append slack 0 a b)
    | _, _ => none

/-- The function `RemoveIntElementOptimized`; `none` is a run-time failure. -/
def RemoveIntElementOptimized (slice : Slice Int) (index : Int) : Option (Slice Int) :=
  if !isValidIndex slice index then
    some slice
  else
    match slice.sliceFrom index, slice.sliceFrom (index + 1) with
    | some dst, some src =>
      Slice.sliceTo { slice with array := copy dst src } ((slice.len : Int) - 1)
    | _, _ => none

/-- The function `RemoveElement`; `none` is a run-time failure. -/
def RemoveElement {α : Type} (slice : Slice α) (index : Int) : Option (Slice α) :=
  if !isValidIndex slice index then
    some slice
  else
    match slice.sliceFrom index, slice.sliceFrom (index + 1) with
    | some dst, some src =>
      Slice.sliceTo { slice with array := copy dst src } ((slice.len : Int) - 1)
    | _, _ => none

/-- The function `ShrinkIfNeeded` (`shrinkThreshold = 2`). -/
def ShrinkIfNeeded {α : Type} (slack : Nat → Nat) (zero : α) (slice : Slice α) :
    Slice α :=
  if (slice.cap : Int) > cache.wrapInt ((slice.len : Int) * 2) then
    append slack zero nilSlice slice
  else
    slice

/-- The function `RemoveElementWithShrink`; `none` is a run-time failure. -/
def RemoveElementWithShrink {α : Type} (slack : Nat → Nat) (zero : α)
    (slice : Slice α) (index : Int) : Option (Slice α) :=
  match RemoveElement slice index with
  | some s => some (ShrinkIfNeeded slack zero s)
  | none => none

/-- The slice literal `[]int{1, 2, 3, 4, 5}` of `main`. -/
def nums : Slice Int :=
  { array := [1, 2, 3, 4, 5], off := 0, len := 5, cap := 5 }

end week1

namespace cache

/-! ## Auxiliary facts about maps and the counter -/

theorem mapStore_same (m : String → Option cacheEntry) (k : String) (e : cacheEntry) :
    mapStore m k e k = some e := by
  simp [mapStore]

theorem mapStore_other (m : String → Option cacheEntry) (k : String) (e : cacheEntry)
    (k2 : String) (h : k2 ≠ k) : mapStore m k e k2 = m k2 := by
  simp [mapStore, h]

theorem mapDelete_same (m : String → Option cacheEntry) (k : String) :
    mapDelete m k k = none := by
  simp [mapDelete]

theorem mapDelete_other (m : String → Option cacheEntry) (k : String)
    (k2 : String) (h : k2 ≠ k) : mapDelete m k k2 = m k2 := by
  simp [mapDelete, h]

theorem wrapInt_of_range (x : Int) (h1 : -(2 ^ 63) ≤ x) (h2 : x < 2 ^ 63) :
    wrapInt x = x := by
  unfold wrapInt
  norm_num at h1 h2 ⊢
  omega

theorem codeTTL_eq : codeTTL = 300000000000 := by
  decide

/-! ## One-step behaviour of `Set` and `Verify` -/

theorem Set_fresh_eq (c : LocalCodeCache) (now : Time) (biz phone code : String)
    (h : ∀ e, c.data (LocalCodeCache.key biz phone) = some e → e.expireAt ≤ now) :
    c.Set now biz phone code =
      (⟨mapStore c.data (LocalCodeCache.key biz phone)
          { code := code, expireAt := now + codeTTL, attempts := 0 }⟩, none) := by
  unfold LocalCodeCache.Set
  cases hk : c.data (LocalCodeCache.key biz phone) with
  | none => simp [hk]
  | some e =>
    have hle := h e hk
    simp [hk, not_lt.mpr hle]

theorem Set_live_keep (c : LocalCodeCache) (now : Time) (biz phone code : String)
    (e : cacheEntry) (hk : c.data (LocalCodeCache.key biz phone) = some e)
    (hl : now < e.expireAt) (ha : wrapInt (e.attempts + 1) ≤ maxAttempts) :
    c.Set now biz phone code =
      (⟨mapStore c.data (LocalCodeCache.key biz phone)
          { e with attempts := wrapInt (e.attempts + 1) }⟩, none) := by
  unfold LocalCodeCache.Set
  simp [hk, hl, not_lt.mpr ha]

theorem Set_live_reject (c : LocalCodeCache) (now : Time) (biz phone code : String)
    (e : cacheEntry) (hk : c.data (LocalCodeCache.key biz phone) = some e)
    (hl : now < e.expireAt) (ha : maxAttempts < wrapInt (e.attempts + 1)) :
    c.Set now biz phone code = (c, some Error.ErrCodeSendTooMany) := by
  unfold LocalCodeCache.Set
  simp [hk, hl, ha]

theorem Verify_absent (c : LocalCodeCache) (now : Time) (biz phone code : String)
    (hk : c.data (LocalCodeCache.key biz phone) = none) :
    c.Verify now biz phone code = (c, false, none) := by
  unfold LocalCodeCache.Verify
  simp [hk]

theorem Verify_expired (c : LocalCodeCache) (now : Time) (biz phone code : String)
    (e : cacheEntry) (hk : c.data (LocalCodeCache.key biz phone) = some e)
    (hl : e.expireAt < now) :
    c.Verify now biz phone code = (c, false, none) := by
  unfold LocalCodeCache.Verify
  simp [hk, hl]

theorem Verify_match (c : LocalCodeCache) (now : Time) (biz phone code : String)
    (e : cacheEntry) (hk : c.data (LocalCodeCache.key biz phone) = some e)
    (hl : now ≤ e.expireAt) (hc : e.code = code) :
    c.Verify now biz phone code =
      (⟨mapDelete c.data (LocalCodeCache.key biz phone)⟩, true, none) := by
  unfold LocalCodeCache.Verify
  simp [hk, not_lt.mpr hl, hc]

theorem Verify_wrong_keep (c : LocalCodeCache) (now : Time) (biz phone code : String)
    (e : cacheEntry) (hk : c.data (LocalCodeCache.key biz phone) = some e)
    (hl : now ≤ e.expireAt) (hc : e.code ≠ code)
    (ha : wrapInt (e.attempts + 1) ≤ maxAttempts) :
    c.Verify now biz phone code =
      (⟨mapStore c.data (LocalCodeCache.key biz phone)
          { e with attempts := wrapInt (e.attempts + 1) }⟩, false, none) := by
  unfold LocalCodeCache.Verify
  simp [hk, not_lt.mpr hl, hc, not_lt.mpr ha]

theorem Verify_wrong_drop (c : LocalCodeCache) (now : Time) (biz phone code : String)
    (e : cacheEntry) (hk : c.data (LocalCodeCache.key biz phone) = some e)
    (hl : now ≤ e.expireAt) (hc : e.code ≠ code)
    (ha : maxAttempts < wrapInt (e.attempts + 1)) :
    c.Verify now biz phone code =
      (⟨mapDelete c.data (LocalCodeCache.key biz phone)⟩, false,
        some Error.ErrCodeVerifyTooMany) := by
  unfold LocalCodeCache.Verify
  simp [hk, not_lt.mpr hl, hc, ha]

/-! ## Frame: a call touches the map at its derived key only -/

theorem Set_frame (c : LocalCodeCache) (now : Time) (biz phone code : String)
    (k : String) (hk : k ≠ LocalCodeCache.key biz phone) :
    (c.Set now biz phone code).1.data k = c.data k := by
  unfold LocalCodeCache.Set
  cases hd : c.data (LocalCodeCache.key biz phone) with
  | none => simp [hd, mapStore, hk]
  | some e =>
    simp only [hd]
    split_ifs <;> simp [mapStore, hk]

theorem Verify_frame (c : LocalCodeCache) (now : Time) (biz phone code : String)
    (k : String) (hk : k ≠ LocalCodeCache.key biz phone) :
    (c.Verify now biz phone code).1.data k = c.data k := by
  unfold LocalCodeCache.Verify
  cases hd : c.data (LocalCodeCache.key biz phone) with
  | none => simp [hd]
  | some e =>
    simp only [hd]
    split_ifs <;> simp [mapStore, mapDelete, hk]

theorem call_frame (c : LocalCodeCache) (op : Op) (k : String) (hk : k ≠ op.key) :
    (c.call op).1.data k = c.data k := by
  cases op with
  | set now biz phone code => exact Set_frame c now biz phone code k hk
  | verify now biz phone code => exact Verify_frame c now biz phone code k hk

theorem call_keeps_absent (c : LocalCodeCache) (op : Op) (k : String)
    (hk : c.data k = none) (hop : op.isSetOn k = false) :
    (c.call op).1.data k = none := by
  cases op with
  | set now biz phone code =>
    have hne : k ≠ LocalCodeCache.key biz phone := by
      intro h
      simp [Op.isSetOn, h] at hop
    rw [call_frame c (Op.set now biz phone code) k hne]
    exact hk
  | verify now biz phone code =>
    by_cases h : k = LocalCodeCache.key biz phone
    · subst h
      simp only [LocalCodeCache.call]
      rw [Verify_absent c now biz phone code hk]
      exact hk
    · rw [call_frame c (Op.verify now biz phone code) k h]
      exact hk

theorem run_keeps_absent (ops : List Op) (c : LocalCodeCache) (k : String)
    (hk : c.data k = none) (hops : ∀ op ∈ ops, op.isSetOn k = false) :
    (c.run ops).data k = none := by
  induction ops generalizing c with
  | nil => exact hk
  | cons op ops ih =>
    simp only [LocalCodeCache.run]
    apply ih
    · exact call_keeps_absent c op k hk (hops op (List.mem_cons_self op ops))
    · intro op2 h2
      exact hops op2 (List.mem_cons_of_mem op h2)

/-! ## Counting steps on an entry with a small counter -/

theorem Verify_wrong_count (c : LocalCodeCache) (now : Time) (biz phone code : String)
    (cd : String) (exp : Time) (a : Int)
    (hk : c.data (LocalCodeCache.key biz phone)
      = some { code := cd, expireAt := exp, attempts := a })
    (hl : now ≤ exp) (hc : cd ≠ code) (h0 : 0 ≤ a) (h3 : a < 3) :
    c.Verify now biz phone code =
      (⟨mapStore c.data (LocalCodeCache.key biz phone)
          { code := cd, expireAt := exp, attempts := a + 1 }⟩, false, none) := by
  have hw : wrapInt (a + 1) = a + 1 := wrapInt_of_range _ (by omega) (by omega)
  have ha : wrapInt (a + 1) ≤ maxAttempts := by
    rw [hw]
    unfold maxAttempts
    omega
  rw [Verify_wrong_keep c now biz phone code _ hk hl hc ha]
  simp only [hw]

theorem Verify_wrong_exhaust (c : LocalCodeCache) (now : Time) (biz phone code : String)
    (cd : String) (exp : Time) (a : Int)
    (hk : c.data (LocalCodeCache.key biz phone)
      = some { code := cd, expireAt := exp, attempts := a })
    (hl : now ≤ exp) (hc : cd ≠ code) (h3 : 3 ≤ a) (hmax : a < 2 ^ 63 - 1) :
    c.Verify now biz phone code =
      (⟨mapDelete c.data (LocalCodeCache.key biz phone)⟩, false,
        some Error.ErrCodeVerifyTooMany) := by
  have hw : wrapInt (a + 1) = a + 1 := wrapInt_of_range _ (by omega) (by omega)
  have ha : maxAttempts < wrapInt (a + 1) := by
    rw [hw]
    unfold maxAttempts
    omega
  exact Verify_wrong_drop c now biz phone code _ hk hl hc ha

theorem Set_live_count (c : LocalCodeCache) (now : Time) (biz phone code : String)
    (cd : String) (exp : Time) (a : Int)
    (hk : c.data (LocalCodeCache.key biz phone)
      = some { code := cd, expireAt := exp, attempts := a })
    (hl : now < exp) (h0 : 0 ≤ a) (h3 : a < 3) :
    c.Set now biz phone code =
      (⟨mapStore c.data (LocalCodeCache.key biz phone)
          { code := cd, expireAt := exp, attempts := a + 1 }⟩, none) := by
  have hw : wrapInt (a + 1) = a + 1 := wrapInt_of_range _ (by omega) (by omega)
  have ha : wrapInt (a + 1) ≤ maxAttempts := by
    rw [hw]
    unfold maxAttempts
    omega
  rw [Set_live_keep c now biz phone code _ hk hl ha]
  simp only [hw]

theorem Set_live_exhaust (c : LocalCodeCache) (now : Time) (biz phone code : String)
    (cd : String) (exp : Time) (a : Int)
    (hk : c.data (LocalCodeCache.key biz phone)
      = some { code := cd, expireAt := exp, attempts := a })
    (hl : now < exp) (h3 : 3 ≤ a) (hmax : a < 2 ^ 63 - 1) :
    c.Set now biz phone code = (c, some Error.ErrCodeSendTooMany) := by
  have hw : wrapInt (a + 1) = a + 1 := wrapInt_of_range _ (by omega) (by omega)
  have ha : maxAttempts < wrapInt (a + 1) := by
    rw [hw]
    unfold maxAttempts
    omega
  exact Set_live_reject c now biz phone code _ hk hl ha

/-! ## Key derivation: splitting a key at its separator -/

theorem split_at_first_sep (sep : Char) (a1 a2 b1 b2 : List Char)
    (h1 : sep ∉ a1) (h2 : sep ∉ a2) (h : a1 ++ sep :: b1 = a2 ++ sep :: b2) :
    a1 = a2 ∧ b1 = b2 := by
  induction a1 generalizing a2 with
  | nil =>
    cases a2 with
    | nil => simpa using h
    | cons y ys =>
      simp only [List.nil_append, List.cons_append, List.cons.injEq] at h
      exact absurd (List.mem_cons.mpr (Or.inl h.1)) h2
  | cons x xs ih =>
    cases a2 with
    | nil =>
      simp only [List.nil_append, List.cons_append, List.cons.injEq] at h
      exact absurd (List.mem_cons.mpr (Or.inl h.1.symm)) h1
    | cons y ys =>
      simp only [List.cons_append, List.cons.injEq] at h
      have hx : sep ∉ xs := fun hm => h1 (List.mem_cons_of_mem x hm)
      have hy : sep ∉ ys := fun hm => h2 (List.mem_cons_of_mem y hm)
      obtain ⟨e1, e2⟩ := ih ys hx hy h.2
      exact ⟨by rw [h.1, e1], e2⟩

theorem split_at_last_sep (sep : Char) (a1 a2 b1 b2 : List Char)
    (h1 : sep ∉ b1) (h2 : sep ∉ b2) (h : a1 ++ sep :: b1 = a2 ++ sep :: b2) :
    a1 = a2 ∧ b1 = b2 := by
  have hr : b1.reverse ++ sep :: a1.reverse = b2.reverse ++ sep :: a2.reverse := by
    have := congrArg List.reverse h
    simpa using this
  obtain ⟨e1, e2⟩ := split_at_first_sep sep b1.reverse b2.reverse a1.reverse a2.reverse
    (by simpa using h1) (by simpa using h2) hr
  exact ⟨List.reverse_injective e2, List.reverse_injective e1⟩

theorem key_data (biz phone : String) :
    (LocalCodeCache.key biz phone).data
      = "phone_code:".data ++ (biz.data ++ ':' :: phone.data) := by
  simp [LocalCodeCache.key, String.data_append]

theorem redis_key_eq_local_key (biz phone : String) :
    RedisCodeCache.key biz phone = LocalCodeCache.key biz phone := rfl

theorem key_injective_of_no_sep (biz1 phone1 biz2 phone2 : String)
    (hc : (':' ∉ biz1.data ∧ ':' ∉ biz2.data) ∨ (':' ∉ phone1.data ∧ ':' ∉ phone2.data))
    (h : LocalCodeCache.key biz1 phone1 = LocalCodeCache.key biz2 phone2) :
    biz1 = biz2 ∧ phone1 = phone2 := by
  have hd := congrArg String.data h
  rw [key_data, key_data] at hd
  have hd2 := List.append_cancel_left hd
  rcases hc with ⟨h1, h2⟩ | ⟨h1, h2⟩
  · obtain ⟨e1, e2⟩ := split_at_first_sep ':' _ _ _ _ h1 h2 hd2
    exact ⟨String.ext e1, String.ext e2⟩
  · obtain ⟨e1, e2⟩ := split_at_last_sep ':' _ _ _ _ h1 h2 hd2
    exact ⟨String.ext e1, String.ext e2⟩

/-! ## A call reads the map at its derived key only -/

theorem Set_congr (c1 c2 : LocalCodeCache) (now : Time) (biz phone code : String)
    (h : c1.data (LocalCodeCache.key biz phone) = c2.data (LocalCodeCache.key biz phone)) :
    (c1.Set now biz phone code).2 = (c2.Set now biz phone code).2 ∧
    (c1.Set now biz phone code).1.data (LocalCodeCache.key biz phone)
      = (c2.Set now biz phone code).1.data (LocalCodeCache.key biz phone) := by
  unfold LocalCodeCache.Set
  cases hd : c2.data (LocalCodeCache.key biz phone) with
  | none => simp [h, hd, mapStore]
  | some e =>
    simp only [h, hd]
    split_ifs
    all_goals simp [mapStore, h, hd]

theorem Verify_congr (c1 c2 : LocalCodeCache) (now : Time) (biz phone code : String)
    (h : c1.data (LocalCodeCache.key biz phone) = c2.data (LocalCodeCache.key biz phone)) :
    (c1.Verify now biz phone code).2 = (c2.Verify now biz phone code).2 ∧
    (c1.Verify now biz phone code).1.data (LocalCodeCache.key biz phone)
      = (c2.Verify now biz phone code).1.data (LocalCodeCache.key biz phone) := by
  unfold LocalCodeCache.Verify
  cases hd : c2.data (LocalCodeCache.key biz phone) with
  | none => simp [h, hd]
  | some e =>
    simp only [h, hd]
    split_ifs
    all_goals simp [mapStore, mapDelete, h, hd]

theorem call_congr (c1 c2 : LocalCodeCache) (op : Op)
    (h : c1.data op.key = c2.data op.key) :
    (c1.call op).2 = (c2.call op).2 ∧
    (c1.call op).1.data op.key = (c2.call op).1.data op.key := by
  cases op with
  | set now biz phone code =>
    obtain ⟨e1, e2⟩ := Set_congr c1 c2 now biz phone code h
    exact ⟨by simp only [LocalCodeCache.call, e1], e2⟩
  | verify now biz phone code =>
    obtain ⟨e1, e2⟩ := Verify_congr c1 c2 now biz phone code h
    exact ⟨by simp only [LocalCodeCache.call, e1], e2⟩

/-! ## The counter stays within its bound -/

theorem AttemptsBounded_new : AttemptsBounded NewLocalCodeCache := by
  intro k e h
  simp [NewLocalCodeCache] at h

theorem AttemptsBounded_store (c : LocalCodeCache) (k : String) (e : cacheEntry)
    (hc : AttemptsBounded c) (h0 : 0 ≤ e.attempts) (h3 : e.attempts ≤ maxAttempts) :
    AttemptsBounded ⟨mapStore c.data k e⟩ := by
  intro k2 e2 h
  have h2 : mapStore c.data k e k2 = some e2 := h
  by_cases hk : k2 = k
  · subst hk
    rw [mapStore_same] at h2
    cases h2
    exact ⟨h0, h3⟩
  · rw [mapStore_other _ _ _ _ hk] at h2
    exact hc k2 e2 h2

theorem AttemptsBounded_delete (c : LocalCodeCache) (k : String)
    (hc : AttemptsBounded c) : AttemptsBounded ⟨mapDelete c.data k⟩ := by
  intro k2 e2 h
  have h2 : mapDelete c.data k k2 = some e2 := h
  by_cases hk : k2 = k
  · subst hk
    rw [mapDelete_same] at h2
    cases h2
  · rw [mapDelete_other _ _ _ hk] at h2
    exact hc k2 e2 h2

theorem wrapInt_succ_nonneg (a : Int) (h0 : 0 ≤ a) (h3 : a ≤ maxAttempts) :
    0 ≤ wrapInt (a + 1) := by
  unfold maxAttempts at h3
  rw [wrapInt_of_range _ (by omega) (by omega)]
  omega

theorem AttemptsBounded_Set (c : LocalCodeCache) (now : Time) (biz phone code : String)
    (hc : AttemptsBounded c) : AttemptsBounded (c.Set now biz phone code).1 := by
  have hfresh : AttemptsBounded ⟨mapStore c.data (LocalCodeCache.key biz phone)
      { code := code, expireAt := now + codeTTL, attempts := 0 }⟩ :=
    AttemptsBounded_store c _ _ hc (le_refl 0) (show (0 : Int) ≤ maxAttempts by decide)
  unfold LocalCodeCache.Set
  cases hd : c.data (LocalCodeCache.key biz phone) with
  | none =>
    simp only [hd]
    exact hfresh
  | some e =>
    obtain ⟨h0, h3⟩ := hc _ e hd
    simp only [hd]
    split_ifs with h1 h2
    · exact hc
    · exact AttemptsBounded_store c _ _ hc (wrapInt_succ_nonneg _ h0 h3) (not_lt.mp h2)
    · exact hfresh

theorem AttemptsBounded_Verify (c : LocalCodeCache) (now : Time) (biz phone code : String)
    (hc : AttemptsBounded c) : AttemptsBounded (c.Verify now biz phone code).1 := by
  unfold LocalCodeCache.Verify
  cases hd : c.data (LocalCodeCache.key biz phone) with
  | none =>
    simp only [hd]
    exact hc
  | some e =>
    obtain ⟨h0, h3⟩ := hc _ e hd
    simp only [hd]
    split_ifs with h1 h2 h4
    · exact hc
    · exact AttemptsBounded_delete c _ hc
    · exact AttemptsBounded_delete c _ hc
    · exact AttemptsBounded_store c _ _ hc (wrapInt_succ_nonneg _ h0 h3) (not_lt.mp h4)

theorem AttemptsBounded_call (c : LocalCodeCache) (op : Op) (hc : AttemptsBounded c) :
    AttemptsBounded (c.call op).1 := by
  cases op with
  | set now biz phone code => exact AttemptsBounded_Set c now biz phone code hc
  | verify now biz phone code => exact AttemptsBounded_Verify c now biz phone code hc

theorem AttemptsBounded_run (ops : List Op) (c : LocalCodeCache) (hc : AttemptsBounded c) :
    AttemptsBounded (c.run ops) := by
  induction ops generalizing c with
  | nil => exact hc
  | cons op ops ih => exact ih (c.call op).1 (AttemptsBounded_call c op hc)

/-! ## Sends against an exhausted entry -/

theorem outcomes_sets_rejected (rest : List (Time × String)) (c : LocalCodeCache)
    (biz phone : String) (cd : String) (exp : Time) (a : Int)
    (hk : c.data (LocalCodeCache.key biz phone)
      = some { code := cd, expireAt := exp, attempts := a })
    (h3 : 3 ≤ a) (hmax : a < 2 ^ 63 - 1) (hl : ∀ p ∈ rest, p.1 < exp) :
    c.outcomes (rest.map fun p => Op.set p.1 biz phone p.2)
      = rest.map fun _ => Outcome.ofSet (some Error.ErrCodeSendTooMany) := by
  induction rest with
  | nil => rfl
  | cons p ps ih =>
    have hp : p.1 < exp := hl p (List.mem_cons_self p ps)
    have hrej := Set_live_exhaust c p.1 biz phone p.2 cd exp a hk hp h3 hmax
    simp only [List.map_cons, LocalCodeCache.outcomes, LocalCodeCache.call, hrej]
    rw [ih (fun q hq => hl q (List.mem_cons_of_mem p hq))]

/-! ## The claims -/

/-- C1 (round trip): when the derived key has no entry, or an entry with
`expireAt ≤ t0`, `Set` at `t0` returns no error and stores
`(code, t0 + 5 minutes, 0)`, and `Verify` with the same arguments at any instant
`t ≤ t0 + 5 minutes` (in particular `t0 ≤ t ≤ t0 + 5 minutes`) returns `(true, nil)`. -/
theorem C1_set_verify_round_trip (c : LocalCodeCache) (biz phone code : String)
    (t0 t : Time)
    (hfree : ∀ e, c.data (LocalCodeCache.key biz phone) = some e → e.expireAt ≤ t0)
    (ht : t ≤ t0 + 5 * Minute) :
    (c.Set t0 biz phone code).2 = none ∧
    (c.Set t0 biz phone code).1.data (LocalCodeCache.key biz phone)
      = some { code := code, expireAt := t0 + 5 * Minute, attempts := 0 } ∧
    ((c.Set t0 biz phone code).1.Verify t biz phone code).2 = (true, none) := by
  rw [Set_fresh_eq c t0 biz phone code hfree]
  refine ⟨rfl, mapStore_same _ _ _, ?_⟩
  rw [Verify_match _ t biz phone code
    { code := code, expireAt := t0 + codeTTL, attempts := 0 } (mapStore_same _ _ _) ht rfl]

/-- Witness of C1: scenario A on the empty cache, verified at the last valid instant. -/
theorem C1_set_verify_round_trip_witness :
    (∀ e, NewLocalCodeCache.data (LocalCodeCache.key "login" "+1555") = some e →
      e.expireAt ≤ 1000) ∧
    (300000001000 : Time) ≤ 1000 + 5 * Minute ∧
    (NewLocalCodeCache.Set 1000 "login" "+1555" "123456").2 = none ∧
    (NewLocalCodeCache.Set 1000 "login" "+1555" "123456").1.data
        (LocalCodeCache.key "login" "+1555")
      = some { code := "123456", expireAt := 1000 + 5 * Minute, attempts := 0 } ∧
    ((NewLocalCodeCache.Set 1000 "login" "+1555" "123456").1.Verify 300000001000
        "login" "+1555" "123456").2 = (true, none) :=
  ⟨by simp [NewLocalCodeCache], by decide,
    C1_set_verify_round_trip NewLocalCodeCache "login" "+1555" "123456" 1000 300000001000
      (by simp [NewLocalCodeCache]) (by decide)⟩

/-- C2 (one-time use): if `Verify` returns `matched = true`, the entry of the key
is removed, and after any further calls none of which is a `Set` on that key, a
`Verify` on the key with any code at any instant returns `(false, nil)`. -/
theorem C2_verify_match_consumes (c : LocalCodeCache) (now : Time)
    (biz phone code : String)
    (hm : (c.Verify now biz phone code).2.1 = true) :
    (c.Verify now biz phone code).1.data (LocalCodeCache.key biz phone) = none ∧
    ∀ ops : List Op, (∀ op ∈ ops, op.isSetOn (LocalCodeCache.key biz phone) = false) →
      ∀ (now2 : Time) (code2 : String),
        (((c.Verify now biz phone code).1.run ops).Verify now2 biz phone code2).2
          = (false, none) := by
  have hgone : (c.Verify now biz phone code).1.data (LocalCodeCache.key biz phone)
      = none := by
    unfold LocalCodeCache.Verify at hm ⊢
    cases hd : c.data (LocalCodeCache.key biz phone) with
    | none => simp [hd]
    | some e =>
      simp only [hd] at hm ⊢
      split_ifs at hm ⊢
      all_goals simp_all [mapDelete]
  refine ⟨hgone, ?_⟩
  intro ops hops now2 code2
  rw [Verify_absent _ now2 biz phone code2 (run_keeps_absent ops _ _ hgone hops)]

/-- Witness of C2: scenario A, with a `Verify` on another key in between. -/
theorem C2_verify_match_consumes_witness :
    ((NewLocalCodeCache.Set 0 "login" "+1555" "123456").1.Verify 5
        "login" "+1555" "123456").2.1 = true ∧
    ((((NewLocalCodeCache.Set 0 "login" "+1555" "123456").1.Verify 5
        "login" "+1555" "123456").1.run [Op.verify 6 "login" "+1666" "123456"]).Verify 7
        "login" "+1555" "123456").2 = (false, none) :=
  ⟨by decide,
    (C2_verify_match_consumes (NewLocalCodeCache.Set 0 "login" "+1555" "123456").1 5
      "login" "+1555" "123456" (by decide)).2
      [Op.verify 6 "login" "+1666" "123456"] (by decide) 7 "123456"⟩

/-- C3 (attempt bound): from a cache in which the key has no entry or one with
`expireAt ≤ t0`, after `Set(k, code)` at `t0` and with every later call made no
later than `t0 + 5 minutes`, the first three `Verify` calls with codes different
from `code` return `(false, nil)` and keep the entry (counter 1, 2, 3), the
fourth returns `(false, ErrCodeVerifyTooMany)` and removes the entry, and a final
`Verify` with the correct code returns `(false, nil)`. -/
theorem C3_attempt_bound (c : LocalCodeCache) (biz phone code w1 w2 w3 w4 : String)
    (t0 t1 t2 t3 t4 t5 : Time)
    (hfree : ∀ e, c.data (LocalCodeCache.key biz phone) = some e → e.expireAt ≤ t0)
    (hw1 : w1 ≠ code) (hw2 : w2 ≠ code) (hw3 : w3 ≠ code) (hw4 : w4 ≠ code)
    (h1 : t1 ≤ t0 + 5 * Minute) (h2 : t2 ≤ t0 + 5 * Minute)
    (h3 : t3 ≤ t0 + 5 * Minute) (h4 : t4 ≤ t0 + 5 * Minute) :
    let s0 := c.Set t0 biz phone code
    let r1 := s0.1.Verify t1 biz phone w1
    let r2 := r1.1.Verify t2 biz phone w2
    let r3 := r2.1.Verify t3 biz phone w3
    let r4 := r3.1.Verify t4 biz phone w4
    let r5 := r4.1.Verify t5 biz phone code
    s0.2 = none ∧
    r1.2 = (false, none) ∧
    r1.1.data (LocalCodeCache.key biz phone)
      = some { code := code, expireAt := t0 + 5 * Minute, attempts := 1 } ∧
    r2.2 = (false, none) ∧
    r2.1.data (LocalCodeCache.key biz phone)
      = some { code := code, expireAt := t0 + 5 * Minute, attempts := 2 } ∧
    r3.2 = (false, none) ∧
    r3.1.data (LocalCodeCache.key biz phone)
      = some { code := code, expireAt := t0 + 5 * Minute, attempts := 3 } ∧
    r4.2 = (false, some Error.ErrCodeVerifyTooMany) ∧
    r4.1.data (LocalCodeCache.key biz phone) = none ∧
    r5.2 = (false, none) := by
  intro s0 r1 r2 r3 r4 r5
  have e0 : s0 = (⟨mapStore c.data (LocalCodeCache.key biz phone)
      { code := code, expireAt := t0 + 5 * Minute, attempts := 0 }⟩, none) :=
    Set_fresh_eq c t0 biz phone code hfree
  have e1 : r1 = (⟨mapStore s0.1.data (LocalCodeCache.key biz phone)
      { code := code, expireAt := t0 + 5 * Minute, attempts := 1 }⟩, false, none) :=
    Verify_wrong_count s0.1 t1 biz phone w1 code (t0 + 5 * Minute) 0
      (by rw [e0]; exact mapStore_same _ _ _) h1 (Ne.symm hw1) (by decide) (by decide)
  have e2 : r2 = (⟨mapStore r1.1.data (LocalCodeCache.key biz phone)
      { code := code, expireAt := t0 + 5 * Minute, attempts := 2 }⟩, false, none) :=
    Verify_wrong_count r1.1 t2 biz phone w2 code (t0 + 5 * Minute) 1
      (by rw [e1]; exact mapStore_same _ _ _) h2 (Ne.symm hw2) (by decide) (by decide)
  have e3 : r3 = (⟨mapStore r2.1.data (LocalCodeCache.key biz phone)
      { code := code, expireAt := t0 + 5 * Minute, attempts := 3 }⟩, false, none) :=
    Verify_wrong_count r2.1 t3 biz phone w3 code (t0 + 5 * Minute) 2
      (by rw [e2]; exact mapStore_same _ _ _) h3 (Ne.symm hw3) (by decide) (by decide)
  have e4 : r4 = (⟨mapDelete r3.1.data (LocalCodeCache.key biz phone)⟩, false,
      some Error.ErrCodeVerifyTooMany) :=
    Verify_wrong_exhaust r3.1 t4 biz phone w4 code (t0 + 5 * Minute) 3
      (by rw [e3]; exact mapStore_same _ _ _) h4 (Ne.symm hw4) (by decide) (by decide)
  have e5 : r5 = (r4.1, false, none) :=
    Verify_absent r4.1 t5 biz phone code (by rw [e4]; exact mapDelete_same _ _)
  refine ⟨?_, ?_, ?_, ?_, ?_, ?_, ?_, ?_, ?_, ?_⟩
  · rw [e0]
  · rw [e1]
  · rw [e1]; exact mapStore_same _ _ _
  · rw [e2]
  · rw [e2]; exact mapStore_same _ _ _
  · rw [e3]
  · rw [e3]; exact mapStore_same _ _ _
  · rw [e4]
  · rw [e4]; exact mapDelete_same _ _
  · rw [e5]

/-- Witness of C3: scenario B on the empty cache, the last calls made exactly at
the expiry instant. -/
theorem C3_attempt_bound_witness :
    (∀ e, NewLocalCodeCache.data (LocalCodeCache.key "login" "+1555") = some e →
      e.expireAt ≤ 0) ∧
    ("000000" ≠ "111111") ∧ ((300000000000 : Time) ≤ 0 + 5 * Minute) ∧
    (((((NewLocalCodeCache.Set 0 "login" "+1555" "111111").1.Verify 1
      "login" "+1555" "000000").1.Verify 2 "login" "+1555" "000000").1.Verify 3
      "login" "+1555" "000000").1.Verify 300000000000 "login" "+1555" "000000").2
      = (false, some Error.ErrCodeVerifyTooMany) ∧
    ((((((NewLocalCodeCache.Set 0 "login" "+1555" "111111").1.Verify 1
      "login" "+1555" "000000").1.Verify 2 "login" "+1555" "000000").1.Verify 3
      "login" "+1555" "000000").1.Verify 300000000000 "login" "+1555" "000000").1.Verify
      300000000000 "login" "+1555" "111111").2 = (false, none) :=
  have h := C3_attempt_bound NewLocalCodeCache "login" "+1555" "111111"
    "000000" "000000" "000000" "000000" 0 1 2 3 300000000000 300000000000
    (by simp [NewLocalCodeCache]) (by decide) (by decide) (by decide) (by decide)
    (by decide) (by decide) (by decide) (by decide)
  ⟨by simp [NewLocalCodeCache], by decide, by decide, h.2.2.2.2.2.2.2.1, h.2.2.2.2.2.2.2.2.2⟩

/-- C4, the claim as stated fails: on the empty cache, four `Set` calls for one key
at the same instant all return no error, so the fourth one is not rejected. -/
theorem C4_fourth_set_succeeds :
    (NewLocalCodeCache.Set 0 "login" "+1555" "111111").2 = none ∧
    ((NewLocalCodeCache.Set 0 "login" "+1555" "111111").1.Set 0
      "login" "+1555" "111111").2 = none ∧
    (((NewLocalCodeCache.Set 0 "login" "+1555" "111111").1.Set 0
      "login" "+1555" "111111").1.Set 0 "login" "+1555" "111111").2 = none ∧
    ((((NewLocalCodeCache.Set 0 "login" "+1555" "111111").1.Set 0
      "login" "+1555" "111111").1.Set 0 "login" "+1555" "111111").1.Set 0
      "login" "+1555" "111111").2 = none ∧
    ((((NewLocalCodeCache.Set 0 "login" "+1555" "111111").1.Set 0
      "login" "+1555" "111111").1.Set 0 "login" "+1555" "111111").1.Set 0
      "login" "+1555" "111111").2 ≠ some Error.ErrCodeSendTooMany := by
  decide

/-- C4 (send-rate limit, amended): from a cache in which the key has no entry or
one with `expireAt ≤ t0`, among consecutive `Set` calls for the key made strictly
before `t0 + 5 minutes` (the expiry set by the first call), the first call and the
next three return no error, and every further call, however many follow, returns
`ErrCodeSendTooMany`. -/
theorem C4_send_rate_limit (c : LocalCodeCache) (biz phone : String)
    (code0 code1 code2 code3 : String) (t0 t1 t2 t3 : Time)
    (rest : List (Time × String))
    (hfree : ∀ e, c.data (LocalCodeCache.key biz phone) = some e → e.expireAt ≤ t0)
    (h1 : t1 < t0 + 5 * Minute) (h2 : t2 < t0 + 5 * Minute)
    (h3 : t3 < t0 + 5 * Minute) (hrest : ∀ p ∈ rest, p.1 < t0 + 5 * Minute) :
    let s0 := c.Set t0 biz phone code0
    let s1 := s0.1.Set t1 biz phone code1
    let s2 := s1.1.Set t2 biz phone code2
    let s3 := s2.1.Set t3 biz phone code3
    s0.2 = none ∧ s1.2 = none ∧ s2.2 = none ∧ s3.2 = none ∧
    s3.1.outcomes (rest.map fun p => Op.set p.1 biz phone p.2)
      = rest.map fun _ => Outcome.ofSet (some Error.ErrCodeSendTooMany) := by
  intro s0 s1 s2 s3
  have e0 : s0 = (⟨mapStore c.data (LocalCodeCache.key biz phone)
      { code := code0, expireAt := t0 + 5 * Minute, attempts := 0 }⟩, none) :=
    Set_fresh_eq c t0 biz phone code0 hfree
  have e1 : s1 = (⟨mapStore s0.1.data (LocalCodeCache.key biz phone)
      { code := code0, expireAt := t0 + 5 * Minute, attempts := 1 }⟩, none) :=
    Set_live_count s0.1 t1 biz phone code1 code0 (t0 + 5 * Minute) 0
      (by rw [e0]; exact mapStore_same _ _ _) h1 (by decide) (by decide)
  have e2 : s2 = (⟨mapStore s1.1.data (LocalCodeCache.key biz phone)
      { code := code0, expireAt := t0 + 5 * Minute, attempts := 2 }⟩, none) :=
    Set_live_count s1.1 t2 biz phone code2 code0 (t0 + 5 * Minute) 1
      (by rw [e1]; exact mapStore_same _ _ _) h2 (by decide) (by decide)
  have e3 : s3 = (⟨mapStore s2.1.data (LocalCodeCache.key biz phone)
      { code := code0, expireAt := t0 + 5 * Minute, attempts := 3 }⟩, none) :=
    Set_live_count s2.1 t3 biz phone code3 code0 (t0 + 5 * Minute) 2
      (by rw [e2]; exact mapStore_same _ _ _) h3 (by decide) (by decide)
  refine ⟨?_, ?_, ?_, ?_, ?_⟩
  · rw [e0]
  · rw [e1]
  · rw [e2]
  · rw [e3]
  · exact outcomes_sets_rejected rest s3.1 biz phone code0 (t0 + 5 * Minute) 3
      (by rw [e3]; exact mapStore_same _ _ _) (by decide) (by decide) hrest

/-- Witness of C4: six sends for one key on the empty cache, the fifth and the
sixth are rejected. -/
theorem C4_send_rate_limit_witness :
    (∀ e, NewLocalCodeCache.data (LocalCodeCache.key "login" "+1555") = some e →
      e.expireAt ≤ 0) ∧
    ((1 : Time) < 0 + 5 * Minute) ∧
    (∀ p ∈ [((1 : Time), "111111"), (2, "222222")], p.1 < 0 + 5 * Minute) ∧
    ((((NewLocalCodeCache.Set 0 "login" "+1555" "111111").1.Set 1
      "login" "+1555" "111111").1.Set 1 "login" "+1555" "111111").1.Set 1
      "login" "+1555" "111111").1.outcomes
      [Op.set 1 "login" "+1555" "111111", Op.set 2 "login" "+1555" "222222"]
      = [Outcome.ofSet (some Error.ErrCodeSendTooMany),
          Outcome.ofSet (some Error.ErrCodeSendTooMany)] :=
  ⟨by simp [NewLocalCodeCache], by decide, by decide,
    (C4_send_rate_limit NewLocalCodeCache "login" "+1555"
      "111111" "111111" "111111" "111111" 0 1 1 1 [(1, "111111"), (2, "222222")]
      (by simp [NewLocalCodeCache]) (by decide) (by decide) (by decide)
      (by decide)).2.2.2.2⟩

/-- C5, the code at the failing input: a second `Set` on a live entry returns no
error, yet the stored entry still holds the first code and the first expiry (only
the counter moved), and an immediate `Verify` with the new code does not match. -/
theorem C5_resend_keeps_old_code :
    ((NewLocalCodeCache.Set 0 "login" "+1555" "111111").1.Set 1
      "login" "+1555" "222222").2 = none ∧
    ((NewLocalCodeCache.Set 0 "login" "+1555" "111111").1.Set 1
      "login" "+1555" "222222").1.data (LocalCodeCache.key "login" "+1555")
      = some { code := "111111", expireAt := 0 + 5 * Minute, attempts := 1 } ∧
    (((NewLocalCodeCache.Set 0 "login" "+1555" "111111").1.Set 1
      "login" "+1555" "222222").1.Verify 1 "login" "+1555" "222222").2
      = (false, none) := by
  decide

/-- C6 (expiry): at any instant strictly after the entry's `expireAt`, `Verify`
returns `(false, nil)` and leaves the cache as it is, whatever the counter and the
candidate are; in particular this holds at any instant more than 5 minutes after
the fresh `Set` that created the entry. -/
theorem C6_verify_after_expiry (c : LocalCodeCache) (now : Time)
    (biz phone code : String) :
    (∀ e, c.data (LocalCodeCache.key biz phone) = some e → e.expireAt < now →
      c.Verify now biz phone code = (c, false, none)) ∧
    (∀ (t0 : Time) (code0 : String),
      (∀ e, c.data (LocalCodeCache.key biz phone) = some e → e.expireAt ≤ t0) →
      t0 + 5 * Minute < now →
      ((c.Set t0 biz phone code0).1.Verify now biz phone code).2 = (false, none)) := by
  constructor
  · intro e hk hl
    exact Verify_expired c now biz phone code e hk hl
  · intro t0 code0 hfree hl
    rw [Set_fresh_eq c t0 biz phone code0 hfree]
    rw [Verify_expired _ now biz phone code
      { code := code0, expireAt := t0 + codeTTL, attempts := 0 } (mapStore_same _ _ _) hl]

/-- Witness of C6: a stored entry verified with its own code one nanosecond after
its expiry, and a fresh entry verified one nanosecond after its 5 minutes. -/
theorem C6_verify_after_expiry_witness :
    ((LocalCodeCache.mk (mapStore (fun _ => none) (LocalCodeCache.key "login" "+1555")
        { code := "123456", expireAt := 10, attempts := 7 })).Verify 11
        "login" "+1555" "123456").2 = (false, none) ∧
    ((NewLocalCodeCache.Set 0 "login" "+1555" "123456").1.Verify 300000000001
        "login" "+1555" "123456").2 = (false, none) :=
  ⟨congrArg Prod.snd
      ((C6_verify_after_expiry
        (LocalCodeCache.mk (mapStore (fun _ => none) (LocalCodeCache.key "login" "+1555")
          { code := "123456", expireAt := 10, attempts := 7 })) 11
        "login" "+1555" "123456").1
        { code := "123456", expireAt := 10, attempts := 7 } (by decide) (by decide)),
    (C6_verify_after_expiry NewLocalCodeCache 300000000001 "login" "+1555" "123456").2
      0 "123456" (by simp [NewLocalCodeCache]) (by decide)⟩

/-- C7, the claim as stated fails: the distinct pairs `("a:b", "c")` and
`("a", "b:c")` derive the same key, for both backends. -/
theorem C7_key_collision :
    (("a:b", "c") : String × String) ≠ ("a", "b:c") ∧
    LocalCodeCache.key "a:b" "c" = LocalCodeCache.key "a" "b:c" ∧
    RedisCodeCache.key "a:b" "c" = RedisCodeCache.key "a" "b:c" := by
  decide

/-- C7 (key derivation, amended): when neither `biz1` nor `biz2` contains the
separator `:` (or neither `phone1` nor `phone2` does), distinct pairs derive
distinct keys; and identical pairs always derive identical keys. Both hold for
`LocalCodeCache.key` and for `RedisCodeCache.key`. -/
theorem C7_key_injective (biz1 phone1 biz2 phone2 : String) :
    (((':' ∉ biz1.data ∧ ':' ∉ biz2.data) ∨ (':' ∉ phone1.data ∧ ':' ∉ phone2.data)) →
      (biz1, phone1) ≠ (biz2, phone2) →
      LocalCodeCache.key biz1 phone1 ≠ LocalCodeCache.key biz2 phone2 ∧
      RedisCodeCache.key biz1 phone1 ≠ RedisCodeCache.key biz2 phone2) ∧
    ((biz1, phone1) = (biz2, phone2) →
      LocalCodeCache.key biz1 phone1 = LocalCodeCache.key biz2 phone2 ∧
      RedisCodeCache.key biz1 phone1 = RedisCodeCache.key biz2 phone2) := by
  constructor
  · intro hc hne
    have hl : LocalCodeCache.key biz1 phone1 ≠ LocalCodeCache.key biz2 phone2 := by
      intro h
      obtain ⟨e1, e2⟩ := key_injective_of_no_sep biz1 phone1 biz2 phone2 hc h
      exact hne (by rw [e1, e2])
    exact ⟨hl, by rw [redis_key_eq_local_key, redis_key_eq_local_key]; exact hl⟩
  · intro h
    have hb : biz1 = biz2 := congrArg Prod.fst h
    have hp : phone1 = phone2 := congrArg Prod.snd h
    rw [hb, hp]
    exact ⟨rfl, rfl⟩

/-- Witness of C7: two business tags for one phone number, and one pair twice. -/
theorem C7_key_injective_witness :
    ((':' ∉ "login".data ∧ ':' ∉ "reset".data) ∨
      (':' ∉ "+1555".data ∧ ':' ∉ "+1555".data)) ∧
    (("login", "+1555") : String × String) ≠ ("reset", "+1555") ∧
    LocalCodeCache.key "login" "+1555" ≠ LocalCodeCache.key "reset" "+1555" ∧
    RedisCodeCache.key "login" "+1555" ≠ RedisCodeCache.key "reset" "+1555" ∧
    LocalCodeCache.key "login" "+1555" = LocalCodeCache.key "login" "+1555" :=
  ⟨by decide, by decide,
    ((C7_key_injective "login" "+1555" "reset" "+1555").1 (by decide) (by decide)).1,
    ((C7_key_injective "login" "+1555" "reset" "+1555").1 (by decide) (by decide)).2,
    ((C7_key_injective "login" "+1555" "login" "+1555").2 rfl).1⟩

/-- C8, the claim as stated fails: the pairs `("a:b", "c")` and `("a", "b:c")`
differ, yet a `Set` on the first turns the result of a `Verify` on the second from
`(false, nil)` into `(true, nil)`. -/
theorem C8_isolation_broken_by_collision :
    (Op.set 0 "a:b" "c" "123456").pair ≠ (Op.verify 1 "a" "b:c" "123456").pair ∧
    (NewLocalCodeCache.call (Op.verify 1 "a" "b:c" "123456")).2
      = Outcome.ofVerify false none ∧
    ((NewLocalCodeCache.call (Op.set 0 "a:b" "c" "123456")).1.call
      (Op.verify 1 "a" "b:c" "123456")).2 = Outcome.ofVerify true none := by
  decide

/-- C8 (key isolation, amended): when the derived keys of two calls differ (as they
do for distinct pairs whose business tags contain no `:`), running the first call
changes neither the result of the second call nor its effect: the second call
returns what it returns without the first one, and the final map agrees with the
map of the run without the first call at every key other than the first call's
key, in particular at the second call's key. -/
theorem C8_key_isolation (c : LocalCodeCache) (op1 op2 : Op) (hk : op1.key ≠ op2.key) :
    ((c.call op1).1.call op2).2 = (c.call op2).2 ∧
    (∀ k, k ≠ op1.key → ((c.call op1).1.call op2).1.data k = (c.call op2).1.data k) ∧
    ((c.call op1).1.call op2).1.data op2.key = (c.call op2).1.data op2.key := by
  have hsame : (c.call op1).1.data op2.key = c.data op2.key :=
    call_frame c op1 op2.key (Ne.symm hk)
  obtain ⟨hres, heff⟩ := call_congr (c.call op1).1 c op2 hsame
  refine ⟨hres, ?_, heff⟩
  intro k hne
  by_cases h2 : k = op2.key
  · rw [h2]
    exact heff
  · rw [call_frame (c.call op1).1 op2 k h2, call_frame c op2 k h2, call_frame c op1 k hne]

/-- Witness of C8: a `Set` for one phone number does not disturb the `Verify` of
another one. -/
theorem C8_key_isolation_witness :
    (Op.set 1 "login" "+1666" "999999").key ≠ (Op.verify 2 "login" "+1555" "123456").key ∧
    (((NewLocalCodeCache.Set 0 "login" "+1555" "123456").1.call
      (Op.set 1 "login" "+1666" "999999")).1.call
      (Op.verify 2 "login" "+1555" "123456")).2
      = ((NewLocalCodeCache.Set 0 "login" "+1555" "123456").1.call
          (Op.verify 2 "login" "+1555" "123456")).2 :=
  ⟨by decide,
    (C8_key_isolation (NewLocalCodeCache.Set 0 "login" "+1555" "123456").1
      (Op.set 1 "login" "+1666" "999999") (Op.verify 2 "login" "+1555" "123456")
      (by decide)).1⟩

/-- C9 (attempt-counter invariant): in every state reached from
`NewLocalCodeCache()` by any sequence of `Set` and `Verify` calls, with any
arguments and instants, every stored entry has `0 ≤ attempts ≤ 3`. -/
theorem C9_attempts_invariant (ops : List Op) (k : String) (e : cacheEntry)
    (h : (NewLocalCodeCache.run ops).data k = some e) :
    0 ≤ e.attempts ∧ e.attempts ≤ 3 :=
  AttemptsBounded_run ops NewLocalCodeCache AttemptsBounded_new k e h

/-- Witness of C9: the entry left by a `Set` followed by three failed `Verify` calls. -/
theorem C9_attempts_invariant_witness :
    (NewLocalCodeCache.run
      [Op.set 0 "login" "+1555" "111111", Op.verify 1 "login" "+1555" "000000",
        Op.verify 2 "login" "+1555" "000000", Op.verify 3 "login" "+1555" "000000"]).data
      (LocalCodeCache.key "login" "+1555")
      = some { code := "111111", expireAt := 300000000000, attempts := 3 } ∧
    (0 : Int) ≤ 3 ∧ (3 : Int) ≤ 3 :=
  ⟨by decide,
    C9_attempts_invariant
      [Op.set 0 "login" "+1555" "111111", Op.verify 1 "login" "+1555" "000000",
        Op.verify 2 "login" "+1555" "000000", Op.verify 3 "login" "+1555" "000000"]
      (LocalCodeCache.key "login" "+1555")
      { code := "111111", expireAt := 300000000000, attempts := 3 } (by decide)⟩

/-- C10, the claim as stated fails: after a `Set` and three failed `Verify` calls
the live entry has its counter at the bound 3, yet a `Verify` with the stored code
returns `(true, nil)` and not `ErrCodeVerifyTooMany`. -/
theorem C10_match_at_bound_succeeds :
    (NewLocalCodeCache.run
      [Op.set 0 "login" "+1555" "111111", Op.verify 1 "login" "+1555" "000000",
        Op.verify 2 "login" "+1555" "000000", Op.verify 3 "login" "+1555" "000000"]).data
      (LocalCodeCache.key "login" "+1555")
      = some { code := "111111", expireAt := 300000000000, attempts := 3 } ∧
    ((NewLocalCodeCache.run
      [Op.set 0 "login" "+1555" "111111", Op.verify 1 "login" "+1555" "000000",
        Op.verify 2 "login" "+1555" "000000", Op.verify 3 "login" "+1555" "000000"]).Verify 4
      "login" "+1555" "111111").2 = (true, none) ∧
    ((NewLocalCodeCache.run
      [Op.set 0 "login" "+1555" "111111", Op.verify 1 "login" "+1555" "000000",
        Op.verify 2 "login" "+1555" "000000", Op.verify 3 "login" "+1555" "000000"]).Verify 4
      "login" "+1555" "111111").2.2 ≠ some Error.ErrCodeVerifyTooMany := by
  decide

/-- C10 (attempts-exhausted outcome, amended): when the counter stored for the key
is a 64-bit integer below the largest one (as in every reachable state), `Verify`
returns `ErrCodeVerifyTooMany` exactly when the key has an entry that is not
expired for `Verify` (`now ≤ expireAt`), whose code differs from the candidate,
and whose counter has already reached the bound 3 before the call; in that case
the result is `false` and the entry is removed. A candidate equal to the code of
such an unexpired entry is matched whatever the counter is: the call returns
`(true, nil)` and removes the entry. -/
theorem C10_verify_too_many (c : LocalCodeCache) (now : Time) (biz phone code : String)
    (hrange : ∀ e, c.data (LocalCodeCache.key biz phone) = some e →
      -(2 ^ 63) ≤ e.attempts ∧ e.attempts < 2 ^ 63 - 1) :
    ((c.Verify now biz phone code).2.2 = some Error.ErrCodeVerifyTooMany ↔
      ∃ e, c.data (LocalCodeCache.key biz phone) = some e ∧ now ≤ e.expireAt ∧
        e.code ≠ code ∧ 3 ≤ e.attempts) ∧
    ((c.Verify now biz phone code).2.2 = some Error.ErrCodeVerifyTooMany →
      (c.Verify now biz phone code).2.1 = false ∧
      (c.Verify now biz phone code).1.data (LocalCodeCache.key biz phone) = none) ∧
    (∀ e, c.data (LocalCodeCache.key biz phone) = some e → now ≤ e.expireAt →
      e.code = code →
      (c.Verify now biz phone code).2 = (true, none) ∧
      (c.Verify now biz phone code).1.data (LocalCodeCache.key biz phone) = none) := by
  have hmatch : ∀ e, c.data (LocalCodeCache.key biz phone) = some e → now ≤ e.expireAt →
      e.code = code →
      (c.Verify now biz phone code).2 = (true, none) ∧
      (c.Verify now biz phone code).1.data (LocalCodeCache.key biz phone) = none := by
    intro e hk hl hc
    rw [Verify_match c now biz phone code e hk hl hc]
    exact ⟨rfl, mapDelete_same _ _⟩
  suffices hpq :
      ((c.Verify now biz phone code).2.2 = some Error.ErrCodeVerifyTooMany ↔
        ∃ e, c.data (LocalCodeCache.key biz phone) = some e ∧ now ≤ e.expireAt ∧
          e.code ≠ code ∧ 3 ≤ e.attempts) ∧
      ((c.Verify now biz phone code).2.2 = some Error.ErrCodeVerifyTooMany →
        (c.Verify now biz phone code).2.1 = false ∧
        (c.Verify now biz phone code).1.data (LocalCodeCache.key biz phone) = none) from
    ⟨hpq.1, hpq.2, hmatch⟩
  cases hd : c.data (LocalCodeCache.key biz phone) with
  | none =>
    rw [Verify_absent c now biz phone code hd]
    simp
  | some e =>
    obtain ⟨hlo, hhi⟩ := hrange e hd
    have hw : wrapInt (e.attempts + 1) = e.attempts + 1 :=
      wrapInt_of_range _ (by omega) (by omega)
    by_cases hl : e.expireAt < now
    · rw [Verify_expired c now biz phone code e hd hl]
      simp only [reduceCtorEq, false_iff, false_implies, and_true]
      rintro ⟨e2, he2, hlive, -⟩
      cases he2
      exact absurd hl (not_lt.mpr hlive)
    · have hl2 : now ≤ e.expireAt := not_lt.mp hl
      by_cases hc : e.code = code
      · rw [Verify_match c now biz phone code e hd hl2 hc]
        simp only [reduceCtorEq, false_iff, false_implies, and_true]
        rintro ⟨e2, he2, -, hne, -⟩
        cases he2
        exact hne hc
      · by_cases ha : 3 ≤ e.attempts
        · have hgt : maxAttempts < wrapInt (e.attempts + 1) := by
            rw [hw]
            unfold maxAttempts
            omega
          rw [Verify_wrong_drop c now biz phone code e hd hl2 hc hgt]
          refine ⟨⟨fun _ => ⟨e, rfl, hl2, hc, ha⟩, fun _ => rfl⟩, fun _ => ⟨rfl, ?_⟩⟩
          exact mapDelete_same _ _
        · have hle : wrapInt (e.attempts + 1) ≤ maxAttempts := by
            rw [hw]
            unfold maxAttempts
            omega
          rw [Verify_wrong_keep c now biz phone code e hd hl2 hc hle]
          simp only [reduceCtorEq, false_iff, false_implies, and_true]
          rintro ⟨e2, he2, -, -, h3⟩
          cases he2
          exact ha h3

/-- Witness of C10: after the three failed `Verify` calls of scenario B, a fourth
wrong code is refused with `ErrCodeVerifyTooMany`, while the stored code is still
matched. -/
theorem C10_verify_too_many_witness :
    (∀ e, (NewLocalCodeCache.run
        [Op.set 0 "login" "+1555" "111111", Op.verify 1 "login" "+1555" "000000",
          Op.verify 2 "login" "+1555" "000000", Op.verify 3 "login" "+1555" "000000"]).data
        (LocalCodeCache.key "login" "+1555") = some e →
      -(2 ^ 63) ≤ e.attempts ∧ e.attempts < 2 ^ 63 - 1) ∧
    ((NewLocalCodeCache.run
        [Op.set 0 "login" "+1555" "111111", Op.verify 1 "login" "+1555" "000000",
          Op.verify 2 "login" "+1555" "000000", Op.verify 3 "login" "+1555" "000000"]).Verify 4
        "login" "+1555" "000000").2.2 = some Error.ErrCodeVerifyTooMany ∧
    ((NewLocalCodeCache.run
        [Op.set 0 "login" "+1555" "111111", Op.verify 1 "login" "+1555" "000000",
          Op.verify 2 "login" "+1555" "000000", Op.verify 3 "login" "+1555" "000000"]).Verify
        300000000000 "login" "+1555" "111111").2 = (true, none) :=
  have hr : ∀ e, (NewLocalCodeCache.run
        [Op.set 0 "login" "+1555" "111111", Op.verify 1 "login" "+1555" "000000",
          Op.verify 2 "login" "+1555" "000000", Op.verify 3 "login" "+1555" "000000"]).data
        (LocalCodeCache.key "login" "+1555") = some e →
      -(2 ^ 63) ≤ e.attempts ∧ e.attempts < 2 ^ 63 - 1 := by
    intro e he
    have hv : (NewLocalCodeCache.run
        [Op.set 0 "login" "+1555" "111111", Op.verify 1 "login" "+1555" "000000",
          Op.verify 2 "login" "+1555" "000000", Op.verify 3 "login" "+1555" "000000"]).data
        (LocalCodeCache.key "login" "+1555")
        = some { code := "111111", expireAt := 300000000000, attempts := 3 } := by
      decide
    rw [hv] at he
    cases he
    decide
  ⟨hr,
    (C10_verify_too_many _ 4 "login" "+1555" "000000" hr).1.mpr
      ⟨{ code := "111111", expireAt := 300000000000, attempts := 3 },
        by decide, by decide, by decide, by decide⟩,
    ((C10_verify_too_many _ 300000000000 "login" "+1555" "111111" hr).2.2
      { code := "111111", expireAt := 300000000000, attempts := 3 }
      (by decide) (by decide) (by decide)).1⟩

/-! ## Claims on the distributed backend and further claims on the local one -/

theorem outcomes_sets_rejected_of_gt (rest : List (Time × String)) (c : LocalCodeCache)
    (biz phone : String) (e : cacheEntry)
    (hk : c.data (LocalCodeCache.key biz phone) = some e)
    (ha : maxAttempts < wrapInt (e.attempts + 1)) (hl : ∀ p ∈ rest, p.1 < e.expireAt) :
    c.outcomes (rest.map fun p => Op.set p.1 biz phone p.2)
      = rest.map fun _ => Outcome.ofSet (some Error.ErrCodeSendTooMany) := by
  induction rest with
  | nil => rfl
  | cons p ps ih =>
    have hp : p.1 < e.expireAt := hl p (List.mem_cons_self p ps)
    have hrej := Set_live_reject c p.1 biz phone p.2 e hk hp ha
    simp only [List.map_cons, LocalCodeCache.outcomes, LocalCodeCache.call, hrej]
    rw [ih (fun q hq => hl q (List.mem_cons_of_mem p hq))]

theorem Set_rejected_inv (c : LocalCodeCache) (now : Time) (biz phone code : String)
    (h : (c.Set now biz phone code).2 = some Error.ErrCodeSendTooMany) :
    ∃ e, c.data (LocalCodeCache.key biz phone) = some e ∧ now < e.expireAt ∧
      maxAttempts < wrapInt (e.attempts + 1) := by
  unfold LocalCodeCache.Set at h
  cases hd : c.data (LocalCodeCache.key biz phone) with
  | none => simp [hd] at h
  | some e =>
    simp only [hd] at h
    split_ifs at h with h1 h2
    exact ⟨e, rfl, h1, h2⟩

/-- C11 (result translation of the distributed `Verify`): when the evaluation
fails with `err` the method returns `(false, err)`; when it succeeds with `-2` it
returns `(false, nil)`, with `-1` it returns `(false, ErrCodeVerifyTooMany)`, and
with any other integer it returns `(true, nil)`. -/
theorem C11_redis_verify_translation (c : RedisCodeCache)
    (luaVerifyCode biz phone code : String) :
    (∀ res err, c.cmd luaVerifyCode [RedisCodeCache.key biz phone] code = (res, some err) →
      c.Verify luaVerifyCode biz phone code = (false, some err)) ∧
    (c.cmd luaVerifyCode [RedisCodeCache.key biz phone] code = (-2, none) →
      c.Verify luaVerifyCode biz phone code = (false, none)) ∧
    (c.cmd luaVerifyCode [RedisCodeCache.key biz phone] code = (-1, none) →
      c.Verify luaVerifyCode biz phone code = (false, some Error.ErrCodeVerifyTooMany)) ∧
    (∀ res, res ≠ -2 → res ≠ -1 →
      c.cmd luaVerifyCode [RedisCodeCache.key biz phone] code = (res, none) →
      c.Verify luaVerifyCode biz phone code = (true, none)) := by
  refine ⟨?_, ?_, ?_, ?_⟩
  · intro res err h
    simp [RedisCodeCache.Verify, h]
  · intro h
    simp [RedisCodeCache.Verify, h]
  · intro h
    simp [RedisCodeCache.Verify, h]
  · intro res h2 h1 h
    simp [RedisCodeCache.Verify, h, h2, h1]

/-- Witness of C11: a failed evaluation, and the results `-2`, `-1` and `0`. -/
theorem C11_redis_verify_translation_witness :
    (RedisCodeCache.mk fun _ _ _ => (0, some (Error.external 7))).Verify
      "verify" "login" "+1555" "123456" = (false, some (Error.external 7)) ∧
    (RedisCodeCache.mk fun _ _ _ => (-2, none)).Verify
      "verify" "login" "+1555" "123456" = (false, none) ∧
    (RedisCodeCache.mk fun _ _ _ => (-1, none)).Verify
      "verify" "login" "+1555" "123456" = (false, some Error.ErrCodeVerifyTooMany) ∧
    (RedisCodeCache.mk fun _ _ _ => (0, none)).Verify
      "verify" "login" "+1555" "123456" = (true, none) :=
  ⟨(C11_redis_verify_translation (RedisCodeCache.mk fun _ _ _ => (0, some (Error.external 7)))
      "verify" "login" "+1555" "123456").1 0 (Error.external 7) rfl,
    (C11_redis_verify_translation (RedisCodeCache.mk fun _ _ _ => (-2, none))
      "verify" "login" "+1555" "123456").2.1 rfl,
    (C11_redis_verify_translation (RedisCodeCache.mk fun _ _ _ => (-1, none))
      "verify" "login" "+1555" "123456").2.2.1 rfl,
    (C11_redis_verify_translation (RedisCodeCache.mk fun _ _ _ => (0, none))
      "verify" "login" "+1555" "123456").2.2.2 0 (by decide) (by decide) rfl⟩

/-- C12 (result translation of the distributed `Set`): when the evaluation fails
with `err` the method returns `err`; when it succeeds with `-2` it returns an error
different from `ErrCodeSendTooMany` and from `ErrCodeVerifyTooMany`, with `-1` it
returns `ErrCodeSendTooMany`, and with `0` it returns `nil`. -/
theorem C12_redis_set_translation (c : RedisCodeCache)
    (luaSetCode biz phone code : String) :
    (∀ res err, c.cmd luaSetCode [RedisCodeCache.key biz phone] code = (res, some err) →
      c.Set luaSetCode biz phone code = some err) ∧
    (c.cmd luaSetCode [RedisCodeCache.key biz phone] code = (-2, none) →
      ∃ e, c.Set luaSetCode biz phone code = some e ∧
        e ≠ Error.ErrCodeSendTooMany ∧ e ≠ Error.ErrCodeVerifyTooMany) ∧
    (c.cmd luaSetCode [RedisCodeCache.key biz phone] code = (-1, none) →
      c.Set luaSetCode biz phone code = some Error.ErrCodeSendTooMany) ∧
    (c.cmd luaSetCode [RedisCodeCache.key biz phone] code = (0, none) →
      c.Set luaSetCode biz phone code = none) := by
  refine ⟨?_, ?_, ?_, ?_⟩
  · intro res err h
    simp [RedisCodeCache.Set, h]
  · intro h
    simp [RedisCodeCache.Set, h]
  · intro h
    simp [RedisCodeCache.Set, h]
  · intro h
    simp [RedisCodeCache.Set, h]

/-- Witness of C12: a failed evaluation, and the results `-2`, `-1` and `0`. -/
theorem C12_redis_set_translation_witness :
    (RedisCodeCache.mk fun _ _ _ => (0, some (Error.external 7))).Set
      "set" "login" "+1555" "123456" = some (Error.external 7) ∧
    (∃ e, (RedisCodeCache.mk fun _ _ _ => (-2, none)).Set
      "set" "login" "+1555" "123456" = some e ∧
        e ≠ Error.ErrCodeSendTooMany ∧ e ≠ Error.ErrCodeVerifyTooMany) ∧
    (RedisCodeCache.mk fun _ _ _ => (-1, none)).Set
      "set" "login" "+1555" "123456" = some Error.ErrCodeSendTooMany ∧
    (RedisCodeCache.mk fun _ _ _ => (0, none)).Set
      "set" "login" "+1555" "123456" = none :=
  ⟨(C12_redis_set_translation (RedisCodeCache.mk fun _ _ _ => (0, some (Error.external 7)))
      "set" "login" "+1555" "123456").1 0 (Error.external 7) rfl,
    (C12_redis_set_translation (RedisCodeCache.mk fun _ _ _ => (-2, none))
      "set" "login" "+1555" "123456").2.1 rfl,
    (C12_redis_set_translation (RedisCodeCache.mk fun _ _ _ => (-1, none))
      "set" "login" "+1555" "123456").2.2.1 rfl,
    (C12_redis_set_translation (RedisCodeCache.mk fun _ _ _ => (0, none))
      "set" "login" "+1555" "123456").2.2.2 rfl⟩

/-- C13 (key format): both backends derive the same key, the text `phone_code`, a
colon, the business context, a colon and the recipient. -/
theorem C13_key_format (biz phone : String) :
    LocalCodeCache.key biz phone = RedisCodeCache.key biz phone ∧
    RedisCodeCache.key biz phone = "phone_code:" ++ biz ++ ":" ++ phone ∧
    (LocalCodeCache.key biz phone).data
      = "phone_code".data ++ ':' :: (biz.data ++ ':' :: phone.data) := by
  refine ⟨rfl, rfl, ?_⟩
  rw [key_data]
  rfl

/-- C16, the code at the failing input: for an entry with `expireAt = 10` and the
instant `10`, `Verify` still compares against the entry (the stored code matches),
whereas `Set` overwrites it with a fresh entry as if it were absent. -/
theorem C16_set_verify_disagree_at_expiry :
    ((LocalCodeCache.mk (mapStore (fun _ => none) (LocalCodeCache.key "login" "+1555")
        { code := "111111", expireAt := 10, attempts := 3 })).Verify 10
        "login" "+1555" "111111").2 = (true, none) ∧
    ((LocalCodeCache.mk (mapStore (fun _ => none) (LocalCodeCache.key "login" "+1555")
        { code := "111111", expireAt := 10, attempts := 3 })).Set 10
        "login" "+1555" "222222").2 = none ∧
    ((LocalCodeCache.mk (mapStore (fun _ => none) (LocalCodeCache.key "login" "+1555")
        { code := "111111", expireAt := 10, attempts := 3 })).Set 10
        "login" "+1555" "222222").1.data (LocalCodeCache.key "login" "+1555")
      = some { code := "222222", expireAt := 10 + 5 * Minute, attempts := 0 } ∧
    ((LocalCodeCache.mk (mapStore (fun _ => none) (LocalCodeCache.key "login" "+1555")
        { code := "111111", expireAt := 10, attempts := 3 })).Set 9
        "login" "+1555" "222222").2 = some Error.ErrCodeSendTooMany := by
  decide

/-- C17 (a rejected `Set` changes nothing): if `Set` returns `ErrCodeSendTooMany`
the cache is unchanged; the key has an entry with `now < expireAt`, every further
`Set` for the key strictly before that `expireAt` is rejected as well, and `Verify`
with the stored code, up to `expireAt`, returns `(true, nil)`. -/
theorem C17_rejected_set_changes_nothing (c : LocalCodeCache) (now : Time)
    (biz phone code : String)
    (h : (c.Set now biz phone code).2 = some Error.ErrCodeSendTooMany) :
    (c.Set now biz phone code).1 = c ∧
    ∃ e, (c.Set now biz phone code).1.data (LocalCodeCache.key biz phone) = some e ∧
      c.data (LocalCodeCache.key biz phone) = some e ∧ now < e.expireAt ∧
      (∀ rest : List (Time × String), (∀ p ∈ rest, p.1 < e.expireAt) →
        (c.Set now biz phone code).1.outcomes (rest.map fun p => Op.set p.1 biz phone p.2)
          = rest.map fun _ => Outcome.ofSet (some Error.ErrCodeSendTooMany)) ∧
      (∀ t : Time, t ≤ e.expireAt →
        ((c.Set now biz phone code).1.Verify t biz phone e.code).2 = (true, none)) := by
  obtain ⟨e, hk, hl, ha⟩ := Set_rejected_inv c now biz phone code h
  have hsame : (c.Set now biz phone code).1 = c := by
    rw [Set_live_reject c now biz phone code e hk hl ha]
  rw [hsame]
  refine ⟨rfl, e, hk, hk, hl, ?_, ?_⟩
  · intro rest hrest
    exact outcomes_sets_rejected_of_gt rest c biz phone e hk ha hrest
  · intro t ht
    rw [Verify_match c t biz phone e.code e hk ht rfl]

/-- Witness of C17: the fifth send of a window is rejected, and so is a sixth. -/
theorem C17_rejected_set_changes_nothing_witness :
    ((NewLocalCodeCache.run
      [Op.set 0 "login" "+1555" "111111", Op.set 1 "login" "+1555" "222222",
        Op.set 2 "login" "+1555" "333333", Op.set 3 "login" "+1555" "444444"]).Set 4
      "login" "+1555" "555555").2 = some Error.ErrCodeSendTooMany ∧
    ((NewLocalCodeCache.run
      [Op.set 0 "login" "+1555" "111111", Op.set 1 "login" "+1555" "222222",
        Op.set 2 "login" "+1555" "333333", Op.set 3 "login" "+1555" "444444"]).Set 4
      "login" "+1555" "555555").1
      = NewLocalCodeCache.run
      [Op.set 0 "login" "+1555" "111111", Op.set 1 "login" "+1555" "222222",
        Op.set 2 "login" "+1555" "333333", Op.set 3 "login" "+1555" "444444"] :=
  ⟨by decide,
    (C17_rejected_set_changes_nothing
      (NewLocalCodeCache.run
        [Op.set 0 "login" "+1555" "111111", Op.set 1 "login" "+1555" "222222",
          Op.set 2 "login" "+1555" "333333", Op.set 3 "login" "+1555" "444444"]) 4
      "login" "+1555" "555555" (by decide)).1⟩

/-- C18, the claim as stated fails: the negative script result `-3` makes the
distributed `Verify` return `matched = true`. -/
theorem C18_negative_result_matches :
    (-3 : Int) < 0 ∧
    (RedisCodeCache.mk fun _ _ _ => (-3, none)).Verify
      "verify" "login" "+1555" "123456" = (true, none) := by
  decide

/-- C18 (match indicator of the distributed `Verify`, amended): the method returns
`matched = true` exactly when the evaluation succeeded and its result is neither
`-2` nor `-1`; so every result `r ≥ 0` matches, and of the negative results only
`-2` and `-1` give `matched = false`. -/
theorem C18_redis_verify_matched (c : RedisCodeCache)
    (luaVerifyCode biz phone code : String) :
    (c.Verify luaVerifyCode biz phone code).1 = true ↔
      ((c.cmd luaVerifyCode [RedisCodeCache.key biz phone] code).2 = none ∧
        (c.cmd luaVerifyCode [RedisCodeCache.key biz phone] code).1 ≠ -2 ∧
        (c.cmd luaVerifyCode [RedisCodeCache.key biz phone] code).1 ≠ -1) := by
  unfold RedisCodeCache.Verify
  rcases hc : c.cmd luaVerifyCode [RedisCodeCache.key biz phone] code with ⟨res, err⟩
  cases err with
  | some e => simp
  | none =>
    simp only []
    split_ifs with h2 h1
    · simp [h2]
    · simp [h1]
    · simp [h2, h1]

/-- C19 (frame over derived keys): `Set` and `Verify` leave the entry stored under
every key string other than the derived key of the call exactly as it was,
whatever they return. -/
theorem C19_frame_other_keys (c : LocalCodeCache) (now : Time) (biz phone code : String)
    (k : String) (hk : k ≠ LocalCodeCache.key biz phone) :
    (c.Set now biz phone code).1.data k = c.data k ∧
    (c.Verify now biz phone code).1.data k = c.data k :=
  ⟨Set_frame c now biz phone code k hk, Verify_frame c now biz phone code k hk⟩

/-- Witness of C19: a `Set` and a matching `Verify` for one phone number leave the
entry of another phone number in place. -/
theorem C19_frame_other_keys_witness :
    LocalCodeCache.key "login" "+1666" ≠ LocalCodeCache.key "login" "+1555" ∧
    ((NewLocalCodeCache.Set 0 "login" "+1666" "999999").1.Set 1
      "login" "+1555" "123456").1.data (LocalCodeCache.key "login" "+1666")
      = (NewLocalCodeCache.Set 0 "login" "+1666" "999999").1.data
          (LocalCodeCache.key "login" "+1666") ∧
    ((NewLocalCodeCache.Set 0 "login" "+1666" "999999").1.Verify 1
      "login" "+1555" "123456").1.data (LocalCodeCache.key "login" "+1666")
      = (NewLocalCodeCache.Set 0 "login" "+1666" "999999").1.data
          (LocalCodeCache.key "login" "+1666") :=
  ⟨by decide,
    C19_frame_other_keys (NewLocalCodeCache.Set 0 "login" "+1666" "999999").1 1
      "login" "+1555" "123456" (LocalCodeCache.key "login" "+1666") (by decide)⟩

end cache

namespace week1

/-! ## Slices: removing one element -/

theorem toList_length {α : Type} (s : Slice α) (h : s.WF) : s.toList.length = s.len := by
  obtain ⟨h1, h2⟩ := h
  simp only [Slice.toList, List.length_take, List.length_drop]
  omega

theorem removed_elems {α : Type} (A : List α) (o n i : Nat) (hi : i < n)
    (hA : o + n ≤ A.length) :
    ((writeAt A (o + i) ((A.drop (o + (i + 1))).take (n - (i + 1)))).drop o).take (n - 1)
      = ((A.drop o).take n).take i ++ ((A.drop o).take n).drop (i + 1) := by
  apply List.ext_getElem?
  intro j
  simp only [writeAt, List.getElem?_take, List.getElem?_drop, List.getElem?_append,
    List.length_take, List.length_drop, List.length_append]
  split_ifs <;> first | rfl | omega | (congr 1; omega)

theorem writeAt_length {α : Type} (A : List α) (pos : Nat) (xs : List α)
    (h : pos + xs.length ≤ A.length) : (writeAt A pos xs).length = A.length := by
  simp only [writeAt, List.length_append, List.length_take, List.length_drop]
  omega

theorem isValidIndex_iff {α : Type} (s : Slice α) (index : Int) :
    isValidIndex s index = true ↔ 0 ≤ index ∧ index < (s.len : Int) := by
  simp [isValidIndex]

theorem RemoveElement_invalid {α : Type} (s : Slice α) (index : Int)
    (h : index < 0 ∨ (s.len : Int) ≤ index) : RemoveElement s index = some s := by
  have hv : isValidIndex s index = false := by
    rw [Bool.eq_false_iff]
    intro ht
    rw [isValidIndex_iff] at ht
    omega
  simp [RemoveElement, hv]

theorem RemoveElement_valid {α : Type} (s : Slice α) (hs : s.WF) (i : Nat)
    (hi : i < s.len) :
    RemoveElement s (i : Int) =
      some { array := writeAt s.array (s.off + i)
               ((s.array.drop (s.off + (i + 1))).take (s.len - (i + 1))),
             off := s.off, len := s.len - 1, cap := s.cap } := by
  obtain ⟨h1, h2⟩ := hs
  have hv : isValidIndex s (i : Int) = true := by
    rw [isValidIndex_iff]
    omega
  have hfrom1 : s.sliceFrom (i : Int) =
      some { array := s.array, off := s.off + i, len := s.len - i, cap := s.cap - i } := by
    have hc : 0 ≤ (i : Int) ∧ (i : Int) ≤ (s.len : Int) := by omega
    simp [Slice.sliceFrom, hc]
  have hfrom2 : s.sliceFrom ((i : Int) + 1) =
      some { array := s.array, off := s.off + (i + 1), len := s.len - (i + 1),
             cap := s.cap - (i + 1) } := by
    have hc : 0 ≤ (i : Int) + 1 ∧ (i : Int) + 1 ≤ (s.len : Int) := by omega
    have ht : ((i : Int) + 1).toNat = i + 1 := by omega
    simp [Slice.sliceFrom, hc, ht]
  have hto : ∀ A : List α, Slice.sliceTo { s with array := A } ((s.len : Int) - 1)
      = some { array := A, off := s.off, len := s.len - 1, cap := s.cap } := by
    intro A
    have hc : 0 ≤ (s.len : Int) - 1 ∧ (s.len : Int) - 1 ≤ (s.cap : Int) := by omega
    have ht : ((s.len : Int) - 1).toNat = s.len - 1 := by omega
    simp [Slice.sliceTo, hc, ht]
  have hmin : min (s.len - i) (s.len - (i + 1)) = s.len - (i + 1) := by omega
  simp only [RemoveElement, hv, hfrom1, hfrom2, hto, copy, Slice.toList, hmin,
    List.take_take, Nat.min_self, Bool.not_true, Bool.false_eq_true, if_false]

theorem RemoveIntElement_valid (slack : Nat → Nat) (s : Slice Int) (hs : s.WF) (i : Nat)
    (hi : i < s.len) :
    RemoveIntElement slack s (i : Int) =
      some { array := writeAt s.array (s.off + i)
               ((s.array.drop (s.off + (i + 1))).take (s.len - (i + 1))),
             off := s.off, len := s.len - 1, cap := s.cap } := by
  obtain ⟨h1, h2⟩ := hs
  have hv : isValidIndex s (i : Int) = true := by
    rw [isValidIndex_iff]
    omega
  have hto : s.sliceTo (i : Int) =
      some { array := s.array, off := s.off, len := i, cap := s.cap } := by
    have hc : 0 ≤ (i : Int) ∧ (i : Int) ≤ (s.cap : Int) := by omega
    simp [Slice.sliceTo, hc]
  have hfrom : s.sliceFrom ((i : Int) + 1) =
      some { array := s.array, off := s.off + (i + 1), len := s.len - (i + 1),
             cap := s.cap - (i + 1) } := by
    have hc : 0 ≤ (i : Int) + 1 ∧ (i : Int) + 1 ≤ (s.len : Int) := by omega
    have ht : ((i : Int) + 1).toNat = i + 1 := by omega
    simp [Slice.sliceFrom, hc, ht]
  have hfit : i + (s.len - (i + 1)) ≤ s.cap := by omega
  have hlen : i + (s.len - (i + 1)) = s.len - 1 := by omega
  have hfit2 : s.len - 1 ≤ s.cap := by omega
  simp only [RemoveIntElement, hv, hto, hfrom, append, hfit2, hlen, Slice.toList,
    Bool.not_true, Bool.false_eq_true, if_false, if_true]

theorem RemoveIntElement_invalid (slack : Nat → Nat) (s : Slice Int) (index : Int)
    (h : index < 0 ∨ (s.len : Int) ≤ index) : RemoveIntElement slack s index = some s := by
  have hv : isValidIndex s index = false := by
    rw [Bool.eq_false_iff]
    intro ht
    rw [isValidIndex_iff] at ht
    omega
  simp [RemoveIntElement, hv]

theorem RemoveIntElement_eq_RemoveElement (slack : Nat → Nat) (s : Slice Int) (hs : s.WF)
    (index : Int) : RemoveIntElement slack s index = RemoveElement s index := by
  by_cases hv : 0 ≤ index ∧ index < (s.len : Int)
  · obtain ⟨h0, hlt⟩ := hv
    have hcast : ((index.toNat : Nat) : Int) = index := Int.toNat_of_nonneg h0
    have hi : index.toNat < s.len := by omega
    rw [← hcast, RemoveIntElement_valid slack s hs index.toNat hi,
      RemoveElement_valid s hs index.toNat hi]
  · have h : index < 0 ∨ (s.len : Int) ≤ index := by omega
    rw [RemoveIntElement_invalid slack s index h, RemoveElement_invalid s index h]

theorem RemoveIntElementOptimized_eq_RemoveElement (s : Slice Int) (index : Int) :
    RemoveIntElementOptimized s index = RemoveElement s index := by
  unfold RemoveIntElementOptimized RemoveElement
  cases s.sliceFrom index <;> cases s.sliceFrom (index + 1) <;> rfl

theorem RemoveElement_returns {α : Type} (s : Slice α) (hs : s.WF) (index : Int) :
    ∃ r, RemoveElement s index = some r ∧ r.WF := by
  by_cases hv : 0 ≤ index ∧ index < (s.len : Int)
  · obtain ⟨h0, hlt⟩ := hv
    have hcast : ((index.toNat : Nat) : Int) = index := Int.toNat_of_nonneg h0
    have hi : index.toNat < s.len := by omega
    refine ⟨_, by rw [← hcast]; exact RemoveElement_valid s hs index.toNat hi, ?_⟩
    obtain ⟨h1, h2⟩ := hs
    refine ⟨by simp only []; omega, ?_⟩
    simp only []
    rw [writeAt_length]
    · exact h2
    · simp only [List.length_take, List.length_drop]
      omega
  · have h : index < 0 ∨ (s.len : Int) ≤ index := by omega
    exact ⟨s, RemoveElement_invalid s index h, hs⟩

theorem ShrinkIfNeeded_elems {α : Type} (slack : Nat → Nat) (zero : α) (s : Slice α)
    (hs : s.WF) :
    (ShrinkIfNeeded slack zero s).toList = s.toList ∧
    (ShrinkIfNeeded slack zero s).len = s.len := by
  have hlen := toList_length s hs
  unfold ShrinkIfNeeded
  split_ifs with hgt
  · unfold append
    split_ifs with hfit
    · have h0 : s.len = 0 := by
        simp only [nilSlice] at hfit
        omega
      simp [Slice.toList, nilSlice, h0]
    · constructor
      · have htake : ∀ (xs ys : List α), xs.length = s.len →
            (xs ++ ys).take s.len = xs := by
          intro xs ys hx
          rw [← hx]
          exact List.take_left' rfl
        simp only [Slice.toList, nilSlice, List.drop_zero, List.take_zero, List.nil_append,
          Nat.zero_add]
        exact htake _ _ hlen
      · simp [nilSlice]
  · exact ⟨rfl, rfl⟩

theorem ShrinkIfNeeded_keeps {α : Type} (slack : Nat → Nat) (zero : α) (s : Slice α)
    (hsmall : s.len < 2 ^ 62) (hcap : s.cap ≤ 2 * s.len) :
    ShrinkIfNeeded slack zero s = s := by
  have hw : cache.wrapInt ((s.len : Int) * 2) = (s.len : Int) * 2 :=
    cache.wrapInt_of_range _ (by omega) (by omega)
  have hle : ¬ ((s.cap : Int) > cache.wrapInt ((s.len : Int) * 2)) := by
    rw [hw]
    omega
  simp only [ShrinkIfNeeded, hle, if_false]

/-- C15 (`RemoveElement` deletes exactly one element): on a well-formed slice and
for `0 ≤ index < len(s)` the call returns a slice one element shorter whose
elements are `s[0 .. index)` followed by `s[index+1 .. len(s))`; for `index < 0` or
`index ≥ len(s)` it returns `s` itself. -/
theorem C15_RemoveElement_removes_one {α : Type} (s : Slice α) (hs : s.WF) (index : Int) :
    (0 ≤ index → index < (s.len : Int) →
      ∃ r, RemoveElement s index = some r ∧ r.WF ∧ r.len + 1 = s.len ∧
        r.toList.length + 1 = s.toList.length ∧
        r.toList = s.toList.take index.toNat ++ s.toList.drop (index.toNat + 1)) ∧
    (index < 0 ∨ (s.len : Int) ≤ index → RemoveElement s index = some s) := by
  constructor
  · intro h0 hlt
    have hcast : ((index.toNat : Nat) : Int) = index := Int.toNat_of_nonneg h0
    have hi : index.toNat < s.len := by omega
    obtain ⟨r, hr, hwf⟩ := RemoveElement_returns s hs index
    have hr2 := RemoveElement_valid s hs index.toNat hi
    rw [hcast, hr] at hr2
    have hreq := Option.some.inj hr2
    have hrl : r.len + 1 = s.len := by
      rw [hreq]
      simp only []
      omega
    refine ⟨r, hr, hwf, hrl, ?_, ?_⟩
    · rw [toList_length r hwf, toList_length s hs]
      exact hrl
    · rw [hreq]
      exact removed_elems s.array s.off s.len index.toNat hi (by
        have := hs.1
        have := hs.2
        omega)
  · intro h
    exact RemoveElement_invalid s index h

/-- Witness of C15: the slice of `main`, index 2 removed and index 5 rejected. -/
theorem C15_RemoveElement_removes_one_witness :
    nums.WF ∧ (0 : Int) ≤ 2 ∧ (2 : Int) < (nums.len : Int) ∧
    (∃ r, RemoveElement nums 2 = some r ∧ r.WF ∧ r.len + 1 = nums.len ∧
      r.toList.length + 1 = nums.toList.length ∧
      r.toList = nums.toList.take (2 : Int).toNat ++ nums.toList.drop ((2 : Int).toNat + 1)) ∧
    RemoveElement nums 5 = some nums :=
  ⟨by decide, by decide, by decide,
    (C15_RemoveElement_removes_one nums (by decide) 2).1 (by decide) (by decide),
    (C15_RemoveElement_removes_one nums (by decide) 5).2 (by decide)⟩

/-- C20 (the four removal variants agree): on a well-formed int slice and for every
index, `RemoveIntElement`, `RemoveIntElementOptimized`, `RemoveElement` and
`RemoveElementWithShrink` all return, and return slices with the same length and
the same elements; `ShrinkIfNeeded` keeps the elements and the length of every
well-formed slice, and returns its argument itself (so the same capacity) when
`cap(s) ≤ 2 * len(s)` and the length is below `2 ^ 62`, as the length of every int
slice is. -/
theorem C20_removal_variants_agree (slack : Nat → Nat) (s : Slice Int) (hs : s.WF)
    (index : Int) :
    (∃ r1 r2 r3 r4, RemoveIntElement slack s index = some r1 ∧
      RemoveIntElementOptimized s index = some r2 ∧
      RemoveElement s index = some r3 ∧
      RemoveElementWithShrink slack 0 s index = some r4 ∧
      r1.toList = r3.toList ∧ r2.toList = r3.toList ∧ r4.toList = r3.toList ∧
      r1.len = r3.len ∧ r2.len = r3.len ∧ r4.len = r3.len) ∧
    (∀ (β : Type) (zero : β) (t : Slice β), t.WF →
      (ShrinkIfNeeded slack zero t).toList = t.toList ∧
      (ShrinkIfNeeded slack zero t).len = t.len ∧
      (t.len < 2 ^ 62 → t.cap ≤ 2 * t.len →
        ShrinkIfNeeded slack zero t = t ∧ (ShrinkIfNeeded slack zero t).cap = t.cap)) := by
  constructor
  · obtain ⟨r, hr, hwf⟩ := RemoveElement_returns s hs index
    obtain ⟨he, hl⟩ := ShrinkIfNeeded_elems slack (0 : Int) r hwf
    refine ⟨r, r, r, ShrinkIfNeeded slack 0 r, ?_, ?_, hr, ?_, rfl, rfl, he, rfl, rfl, hl⟩
    · rw [RemoveIntElement_eq_RemoveElement slack s hs index, hr]
    · rw [RemoveIntElementOptimized_eq_RemoveElement s index, hr]
    · simp only [RemoveElementWithShrink, hr]
  · intro β zero t ht
    obtain ⟨he, hl⟩ := ShrinkIfNeeded_elems slack zero t ht
    refine ⟨he, hl, ?_⟩
    intro hsmall hcap
    have hk := ShrinkIfNeeded_keeps slack zero t hsmall hcap
    exact ⟨hk, by rw [hk]⟩

/-- Witness of C20: the third removal of `main`, where the shrinking variant
allocates, and a slice that `ShrinkIfNeeded` leaves alone. -/
theorem C20_removal_variants_agree_witness :
    (Slice.WF ({ array := [3, 4, 5, 5, 5], off := 0, len := 3, cap := 5 } : Slice Int)) ∧
    (∃ r1 r2 r3 r4,
      RemoveIntElement (fun _ => 0)
        ({ array := [3, 4, 5, 5, 5], off := 0, len := 3, cap := 5 } : Slice Int) 0
        = some r1 ∧
      RemoveIntElementOptimized
        ({ array := [3, 4, 5, 5, 5], off := 0, len := 3, cap := 5 } : Slice Int) 0
        = some r2 ∧
      RemoveElement
        ({ array := [3, 4, 5, 5, 5], off := 0, len := 3, cap := 5 } : Slice Int) 0
        = some r3 ∧
      RemoveElementWithShrink (fun _ => 0) 0
        ({ array := [3, 4, 5, 5, 5], off := 0, len := 3, cap := 5 } : Slice Int) 0
        = some r4 ∧
      r1.toList = r3.toList ∧ r2.toList = r3.toList ∧ r4.toList = r3.toList ∧
      r1.len = r3.len ∧ r2.len = r3.len ∧ r4.len = r3.len) ∧
    nums.WF ∧ nums.len < 2 ^ 62 ∧ nums.cap ≤ 2 * nums.len ∧
    (ShrinkIfNeeded (fun _ => 0) 0 nums).cap = nums.cap :=
  ⟨by decide,
    (C20_removal_variants_agree (fun _ => 0)
      ({ array := [3, 4, 5, 5, 5], off := 0, len := 3, cap := 5 } : Slice Int)
      (by decide) 0).1,
    by decide, by decide, by decide,
    (((C20_removal_variants_agree (fun _ => 0) nums (by decide) 0).2 Int 0 nums
      (by decide)).2.2 (by decide) (by decide)).2⟩

end week1
